import Mathlib

/-!
# go-redis-migrate: the `copy` command (`src/cmd/copy.go`)

A shallow embedding of the orchestrator of the migration tool.  The command
body is straight-line code over collaborators that live outside the file
(the radix client library, cobra, and the scanner / pusher / reporter
packages).  Every call that leaves the file is recorded in a trace; what the
outside answers is supplied by an environment `Env`, which may look at the
whole history of the interaction.
-/

namespace GoRedisMigrate

set_option linter.unusedTactic false
set_option linter.unreachableTactic false
set_option linter.unusedVariables false

/-! ## Values exchanged with the collaborators -/

/-- Go `error` value (non-nil), identified by its message. -/
structure Error where
  msg : String
deriving DecidableEq, Repr

/-- Handle of a `radix.Client`. -/
structure Client where
  handle : Nat
deriving DecidableEq, Repr

/-- Handle of a `*reporter.Reporter`. -/
structure Reporter where
  handle : Nat
deriving DecidableEq, Repr

/-- Handle of a `*scanner.Scanner`. -/
structure Scanner where
  handle : Nat
deriving DecidableEq, Repr

/-- Handle of a `*pusher.RedisPusher`. -/
structure Pusher where
  handle : Nat
deriving DecidableEq, Repr

/-- Handle of a `*sync.WaitGroup`. -/
structure WaitGroup where
  handle : Nat
deriving DecidableEq, Repr

/-- Handle of the dump channel. -/
structure Chan where
  handle : Nat
deriving DecidableEq, Repr

/-- The fields of `tls.Config` that `createRedisClient` sets. -/
structure TLSConfig where
  InsecureSkipVerify : Bool
deriving DecidableEq, Repr

/-- Options of `radix.Dial`. -/
inductive DialOpt
  | DialUseTLS (config : TLSConfig)
deriving DecidableEq, Repr

/-- A call `radix.Dial(network, addr, opts...)`. -/
structure DialCall where
  network : String
  addr : String
  opts : List DialOpt
deriving DecidableEq, Repr

/-- The closure `connFunc` of `createRedisClient`, as the variable it captures. -/
structure ConnFunc where
  tlsConfig : TLSConfig
deriving DecidableEq, Repr

/-- Body of the closure: `radix.Dial(network, addr, radix.DialUseTLS(tlsConfig))`. -/
def ConnFunc.call (f : ConnFunc) (network addr : String) : DialCall :=
  { network := network, addr := addr, opts := [DialOpt.DialUseTLS f.tlsConfig] }

/-- Options of `radix.NewPool`. -/
inductive PoolOpt
  | PoolConnFunc (cf : ConnFunc)
deriving DecidableEq, Repr

/-- The struct `scanner.RedisScannerOpts` as the command fills it. -/
structure RedisScannerOpts where
  Pattern : String
  ScanCount : Int
  PullRoutineCount : Int
deriving DecidableEq, Repr

/-! ## Machine integers and durations -/

/-- Reduction of an integer to the 64-bit two's complement range. -/
def wrapInt64 (x : Int) : Int :=
  (x + 2 ^ 63) % 2 ^ 64 - 2 ^ 63

/-- Range of Go `int` and `int64` on a 64-bit platform. -/
def inInt64 (x : Int) : Prop :=
  -(2 ^ 63) ≤ x ∧ x < 2 ^ 63

instance (x : Int) : Decidable (inInt64 x) := by
  unfold inInt64
  exact inferInstance

/-- The type `time.Duration`: an `int64` count of nanoseconds. -/
abbrev Duration := Int

/-- The constant `time.Second`. -/
def time.Second : Duration := 1000000000

/-- The conversion `time.Duration(n)` of an `int`. -/
def time.toDuration (n : Int) : Duration :=
  wrapInt64 n

/-- Multiplication of two `time.Duration` values (wraps on overflow). -/
def Duration.mul (a b : Duration) : Duration :=
  wrapInt64 (a * b)

/-! ## The interaction trace -/

/-- One call that leaves `copy.go`, with its arguments. -/
inductive Event
  | Println (s : String)
  | NewPool (network addr : String) (size : Int) (opts : List PoolOpt)
  | DefaultClientFunc (network addr : String)
  | Fatal (err : Error)
  | NewReporter
  | NewScanner (client : Client) (opts : RedisScannerOpts) (reporter : Reporter)
  | GetDumpChannel (s : Scanner)
  | NewRedisPusher (client : Client) (dumpChannel : Chan) (reporter : Reporter)
  | NewWaitGroup
  | ReporterStart (r : Reporter) (reportPeriod : Duration)
  | PusherStart (p : Pusher) (wg : WaitGroup) (number : Int)
  | ScannerStart (s : Scanner)
  | Wait (wg : WaitGroup)
  | ReporterStop (r : Reporter)
  | ReporterReport (r : Reporter)
deriving DecidableEq, Repr

/-- What the outside answers.  Each answer may depend on the history of calls
made so far.  `returns tr` tells whether the call logged last in `tr` comes
back to its caller (a call may block for ever or panic inside). -/
structure Env where
  NewPool : List Event → String → String → Int → List PoolOpt → Except Error Client
  DefaultClientFunc : List Event → String → String → Except Error Client
  NewReporter : List Event → Reporter
  NewScanner : List Event → Client → RedisScannerOpts → Reporter → Scanner
  GetDumpChannel : List Event → Scanner → Chan
  NewRedisPusher : List Event → Client → Chan → Reporter → Pusher
  returns : List Event → Bool

/-- Ways in which the command body stops before its last statement. -/
inductive Abort
  | exit (code : Int)
  | panic (msg : String)
  | noReturn
deriving DecidableEq, Repr

/-- Computations of the command: they extend the trace and either yield a
value or stop. -/
def M (α : Type) : Type :=
  List Event → Except Abort α × List Event

/-- Sequencing `pure` of `M`. -/
def M.pure {α : Type} (a : α) : M α :=
  fun tr => (Except.ok a, tr)

/-- Sequencing `bind` of `M`: the rest does not run after a stop. -/
def M.bind {α β : Type} (x : M α) (f : α → M β) : M β :=
  fun tr =>
    match x tr with
    | (Except.ok a, tr1) => f a tr1
    | (Except.error e, tr1) => (Except.error e, tr1)

instance : Monad M where
  pure := M.pure
  bind := M.bind

/-- A call that leaves the file: it is logged, then its answer `ans`
(computed from the history before the call) is delivered if it returns. -/
def callOut {α : Type} (env : Env) (e : Event) (ans : List Event → α) : M α :=
  fun tr =>
    if env.returns (tr ++ [e]) then (Except.ok (ans tr), tr ++ [e])
    else (Except.error Abort.noReturn, tr ++ [e])

/-- Standard output: `fmt.Println(s)`. -/
def fmt.Println (s : String) : M Unit :=
  fun tr => (Except.ok (), tr ++ [Event.Println s])

/-- Library `log.Fatal(err)`: prints the error and calls `os.Exit(1)`. -/
def log.Fatal {α : Type} (err : Error) : M α :=
  fun tr => (Except.error (Abort.exit 1), tr ++ [Event.Fatal err])

/-- Indexing `args[i]` of a slice; out of range is a run-time panic. -/
def index (args : List String) (i : Nat) : M String :=
  fun tr =>
    match args.get? i with
    | some a => (Except.ok a, tr)
    | none => (Except.error (Abort.panic "index out of range"), tr)

/-- Builtin `new(sync.WaitGroup)`: a fresh wait group, named by its position
in the trace. -/
def newWaitGroup : M WaitGroup :=
  fun tr => (Except.ok { handle := tr.length }, tr ++ [Event.NewWaitGroup])

/-! ## The package-level variables and `init` -/

/-- The package-level flag variables of `copy.go`. -/
structure Flags where
  pattern : String
  scanCount : Int
  report : Int
  exportRoutines : Int
  pushRoutines : Int
  sourceTLS : Bool
  sourceTLSInsecure : Bool
  destTLS : Bool
  destTLSInsecure : Bool
deriving DecidableEq, Repr

/-- Go zero values of the package-level variables. -/
def Flags.zero : Flags :=
  { pattern := "", scanCount := 0, report := 0, exportRoutines := 0, pushRoutines := 0,
    sourceTLS := false, sourceTLSInsecure := false, destTLS := false, destTLSInsecure := false }

/-- The variable a flag is bound to (the pointer given to `StringVar`,
`IntVar`, `BoolVar`). -/
inductive Var
  | pattern | scanCount | report | exportRoutines | pushRoutines
  | sourceTLS | sourceTLSInsecure | destTLS | destTLSInsecure
deriving DecidableEq, Repr

/-- A typed flag value. -/
inductive FlagValue
  | str (s : String)
  | int (i : Int)
  | bool (b : Bool)
deriving DecidableEq, Repr

/-- Store through the pointer `v`; `none` when the value has the wrong type. -/
def Flags.store (f : Flags) (v : Var) (x : FlagValue) : Option Flags :=
  match v, x with
  | Var.pattern, FlagValue.str s => some { f with pattern := s }
  | Var.scanCount, FlagValue.int i => some { f with scanCount := i }
  | Var.report, FlagValue.int i => some { f with report := i }
  | Var.exportRoutines, FlagValue.int i => some { f with exportRoutines := i }
  | Var.pushRoutines, FlagValue.int i => some { f with pushRoutines := i }
  | Var.sourceTLS, FlagValue.bool b => some { f with sourceTLS := b }
  | Var.sourceTLSInsecure, FlagValue.bool b => some { f with sourceTLSInsecure := b }
  | Var.destTLS, FlagValue.bool b => some { f with destTLS := b }
  | Var.destTLSInsecure, FlagValue.bool b => some { f with destTLSInsecure := b }
  | _, _ => none

/-- A registered flag. -/
structure FlagDef where
  var : Var
  name : String
  value : FlagValue
  usage : String
deriving DecidableEq, Repr

/-- The flag set of the command together with the variables it writes. -/
structure FlagSet where
  vars : Flags
  defs : List FlagDef
deriving DecidableEq, Repr

/-- Registration `Flags().StringVar(&v, name, value, usage)`: the variable takes
the default at once. -/
def FlagSet.StringVar (fs : FlagSet) (v : Var) (name value usage : String) : FlagSet :=
  { vars := (fs.vars.store v (FlagValue.str value)).getD fs.vars,
    defs := fs.defs ++ [{ var := v, name := name, value := FlagValue.str value, usage := usage }] }

/-- Registration `Flags().IntVar(&v, name, value, usage)`. -/
def FlagSet.IntVar (fs : FlagSet) (v : Var) (name : String) (value : Int) (usage : String) :
    FlagSet :=
  { vars := (fs.vars.store v (FlagValue.int value)).getD fs.vars,
    defs := fs.defs ++ [{ var := v, name := name, value := FlagValue.int value, usage := usage }] }

/-- Registration `Flags().BoolVar(&v, name, value, usage)`. -/
def FlagSet.BoolVar (fs : FlagSet) (v : Var) (name : String) (value : Bool) (usage : String) :
    FlagSet :=
  { vars := (fs.vars.store v (FlagValue.bool value)).getD fs.vars,
    defs := fs.defs ++ [{ var := v, name := name, value := FlagValue.bool value, usage := usage }] }

/-- The function `init` of `copy.go`: the nine flag registrations, in order. -/
def init : FlagSet :=
  let fs : FlagSet := { vars := Flags.zero, defs := [] }
  let fs := fs.StringVar Var.pattern "pattern" "*" "Match pattern for keys"
  let fs := fs.IntVar Var.scanCount "scanCount" 100 "COUNT parameter for redis SCAN command"
  let fs := fs.IntVar Var.report "report" 1 "Report current status every N seconds"
  let fs := fs.IntVar Var.exportRoutines "exportRoutines" 30 "Number of parallel export goroutines"
  let fs := fs.IntVar Var.pushRoutines "pushRoutines" 30 "Number of parallel push goroutines"
  let fs := fs.BoolVar Var.sourceTLS "source-tls" false "Enable TLS for source Redis connection"
  let fs := fs.BoolVar Var.sourceTLSInsecure "source-tls-insecure" false
    "Skip TLS certificate verification for source"
  let fs := fs.BoolVar Var.destTLS "dest-tls" false "Enable TLS for destination Redis connection"
  let fs := fs.BoolVar Var.destTLSInsecure "dest-tls-insecure" false
    "Skip TLS certificate verification for destination"
  fs

/-- A value the flag package accepts for a flag of its type: an `int` flag is
parsed with `strconv.ParseInt(s, 0, 64)`, which refuses a value outside the
64-bit range. -/
def FlagValue.accepted : FlagValue → Bool
  | FlagValue.int i => decide (inInt64 i)
  | _ => true

/-- Setting one flag given on the command line: the flag is looked up by name
and the value, when it is accepted, is stored in its variable. -/
def FlagSet.set (fs : FlagSet) (name : String) (x : FlagValue) : Option FlagSet :=
  match fs.defs.find? (fun d => d.name == name) with
  | some d =>
    if x.accepted then (fs.vars.store d.var x).map (fun vs => { fs with vars := vs })
    else none
  | none => none

/-- Parsing the flags given on the command line, left to right. -/
def FlagSet.parse (fs : FlagSet) : List (String × FlagValue) → Option FlagSet
  | [] => some fs
  | (name, x) :: rest =>
    match fs.set name x with
    | some fs1 => fs1.parse rest
    | none => none

/-! ## `createRedisClient` and the command body -/

/-- The library call `radix.NewPool(network, addr, size, opts...)`. -/
def radix.NewPool (env : Env) (network addr : String) (size : Int) (opts : List PoolOpt) :
    M (Except Error Client) :=
  callOut env (Event.NewPool network addr size opts)
    (fun tr => env.NewPool tr network addr size opts)

/-- The library call `radix.DefaultClientFunc(network, addr)`. -/
def radix.DefaultClientFunc (env : Env) (network addr : String) : M (Except Error Client) :=
  callOut env (Event.DefaultClientFunc network addr)
    (fun tr => env.DefaultClientFunc tr network addr)

/-- The function `createRedisClient` of `copy.go`. -/
def createRedisClient (env : Env) (addr : String) (useTLS insecureSkipVerify : Bool) :
    M (Except Error Client) :=
  if useTLS then
    let tlsConfig : TLSConfig := { InsecureSkipVerify := insecureSkipVerify }
    let connFunc : ConnFunc := { tlsConfig := tlsConfig }
    radix.NewPool env "tcp" addr 4 [PoolOpt.PoolConnFunc connFunc]
  else
    radix.DefaultClientFunc env "tcp" addr

/-- The check `if err != nil { log.Fatal(err) }` after a client creation. -/
def orFatal (r : Except Error Client) : M Client :=
  match r with
  | Except.error err => log.Fatal err
  | Except.ok c => M.pure c

/-- The function `Run` of `copyCmd`. -/
def copyCmd.Run (env : Env) (flags : Flags) (args : List String) : M Unit := do
  fmt.Println "Start copying"
  let a0 ← index args 0
  let clientSource ← (createRedisClient env a0 flags.sourceTLS flags.sourceTLSInsecure) >>= orFatal
  let a1 ← index args 1
  let clientTarget ← (createRedisClient env a1 flags.destTLS flags.destTLSInsecure) >>= orFatal
  let statusReporter ← callOut env Event.NewReporter env.NewReporter
  let opts : RedisScannerOpts :=
    { Pattern := flags.pattern, ScanCount := flags.scanCount,
      PullRoutineCount := flags.exportRoutines }
  let redisScanner ← callOut env (Event.NewScanner clientSource opts statusReporter)
    (fun tr => env.NewScanner tr clientSource opts statusReporter)
  let dumpChannel ← callOut env (Event.GetDumpChannel redisScanner)
    (fun tr => env.GetDumpChannel tr redisScanner)
  let redisPusher ← callOut env (Event.NewRedisPusher clientTarget dumpChannel statusReporter)
    (fun tr => env.NewRedisPusher tr clientTarget dumpChannel statusReporter)
  let waitingGroup ← newWaitGroup
  callOut env (Event.ReporterStart statusReporter
    (Duration.mul time.Second (time.toDuration flags.report))) (fun _ => ())
  callOut env (Event.PusherStart redisPusher waitingGroup flags.pushRoutines) (fun _ => ())
  callOut env (Event.ScannerStart redisScanner) (fun _ => ())
  callOut env (Event.Wait waitingGroup) (fun _ => ())
  callOut env (Event.ReporterStop statusReporter) (fun _ => ())
  callOut env (Event.ReporterReport statusReporter) (fun _ => ())
  fmt.Println "Finish copying"

/-- The validator `cobra.MinimumNArgs(n)`: an error when fewer than `n`
positional arguments are given, `none` (nil) otherwise. -/
def cobra.MinimumNArgs (n : Nat) (args : List String) : Option Error :=
  if args.length < n then
    some { msg := "requires at least " ++ toString n ++ " arg(s), only received " ++
      toString args.length }
  else none

/-- The field `Args` of `copyCmd`. -/
def copyCmd.Args : List String → Option Error :=
  cobra.MinimumNArgs 2

/-- Execution of the command by cobra on positional arguments `args`: the
arguments are validated, and `Run` is called only when they pass. -/
def copyCmd.execute (env : Env) (flags : Flags) (args : List String) :
    Except Error (Except Abort Unit × List Event) :=
  match copyCmd.Args args with
  | some err => Except.error err
  | none => Except.ok (copyCmd.Run env flags args [])

/-- An environment in which every call returns, every client is created,
and each object is named by the position of the call that made it. -/
def demoEnv : Env :=
  { NewPool := fun tr _ _ _ _ => Except.ok { handle := tr.length },
    DefaultClientFunc := fun tr _ _ => Except.ok { handle := tr.length },
    NewReporter := fun tr => { handle := tr.length },
    NewScanner := fun tr _ _ _ => { handle := tr.length },
    GetDumpChannel := fun tr _ => { handle := tr.length },
    NewRedisPusher := fun tr _ _ _ => { handle := tr.length },
    returns := fun _ => true }

/-- An environment like `demoEnv` in which the creation of the source client
(the first call into radix) fails. -/
def failSourceEnv : Env :=
  { demoEnv with
    NewPool := fun _ _ _ _ _ => Except.error { msg := "connection refused" },
    DefaultClientFunc := fun _ _ _ => Except.error { msg := "connection refused" } }

/-- An environment like `demoEnv` in which the source client is created and
the creation of the destination client (the second call into radix) fails. -/
def failDestEnv : Env :=
  { demoEnv with
    NewPool := fun tr _ _ _ _ =>
      if tr.length ≤ 1 then Except.ok { handle := 1 } else Except.error { msg := "auth failed" },
    DefaultClientFunc := fun tr _ _ =>
      if tr.length ≤ 1 then Except.ok { handle := 1 } else Except.error { msg := "auth failed" } }

/-- Flags in which the two routine counts differ, all else at its default. -/
def skewFlags : Flags :=
  { init.vars with exportRoutines := 7, pushRoutines := 3 }

/-- The default flags with `--report` given as `n`. -/
def reportFlags (n : Int) : Flags :=
  { init.vars with report := n }

/-- The default flags with TLS and skipped verification on the source side
only. -/
def tlsSourceFlags : Flags :=
  { init.vars with sourceTLS := true, sourceTLSInsecure := true }

/-! ## Vocabulary used to state the properties -/

/-- The event is a client creation: a call into radix that makes a client. -/
def Event.isClientCreation : Event → Bool
  | Event.NewPool _ _ _ _ => true
  | Event.DefaultClientFunc _ _ => true
  | _ => false

/-- The event constructs, starts, waits for or stops the Reporter, the
Scanner or the Pusher. -/
def Event.isPipeline : Event → Bool
  | Event.NewReporter => true
  | Event.NewScanner _ _ _ => true
  | Event.GetDumpChannel _ => true
  | Event.NewRedisPusher _ _ _ => true
  | Event.NewWaitGroup => true
  | Event.ReporterStart _ _ => true
  | Event.PusherStart _ _ _ => true
  | Event.ScannerStart _ => true
  | Event.Wait _ => true
  | Event.ReporterStop _ => true
  | Event.ReporterReport _ => true
  | _ => false

/-- The call into radix by which `createRedisClient` asks for a client (see
`createRedisClient_trace`). -/
def creationEvent (addr : String) (useTLS insecureSkipVerify : Bool) : Event :=
  if useTLS then
    Event.NewPool "tcp" addr 4
      [PoolOpt.PoolConnFunc (ConnFunc.mk (TLSConfig.mk insecureSkipVerify))]
  else Event.DefaultClientFunc "tcp" addr

/-- The client creations of a trace, in order. -/
def clientCreations (tr : List Event) : List Event :=
  tr.filter Event.isClientCreation

/-- The `radix.Dial` call through which a client made by this creation opens
its connections.  Pool options apply in order, so the last `PoolConnFunc`
is the one used; a pool without it, and `DefaultClientFunc`, dial with no
option. -/
def Event.dial? : Event → Option DialCall
  | Event.NewPool network addr _ opts =>
    match opts.getLast? with
    | some (PoolOpt.PoolConnFunc cf) => some (cf.call network addr)
    | none => some { network := network, addr := addr, opts := [] }
  | Event.DefaultClientFunc network addr =>
    some { network := network, addr := addr, opts := [] }
  | _ => none

/-- The TLS configuration a dial call uses, if it uses TLS. -/
def DialCall.tlsConfig? (d : DialCall) : Option TLSConfig :=
  match d.opts.getLast? with
  | some (DialOpt.DialUseTLS config) => some config
  | none => none

/-- The client made by this creation is dialled with TLS. -/
def Event.usesTLS (e : Event) : Bool :=
  match e.dial? with
  | some d => d.tlsConfig?.isSome
  | none => false

/-- The client made by this creation skips certificate verification. -/
def Event.skipsVerify (e : Event) : Bool :=
  match e.dial? with
  | some d =>
    match d.tlsConfig? with
    | some config => config.InsecureSkipVerify
    | none => false
  | none => false

/-- The address the client made by this creation is dialled at. -/
def Event.dialAddr? (e : Event) : Option String :=
  e.dial?.map (fun d => d.addr)

/-! ## The pipeline driven by the command body

The Scanner and the Pusher live in packages outside `copy.go`.  To reason
about what the wait of the command body implies, they are modelled from the
specification as a transition system in which the orchestrator, the
enumeration loop, the extraction workers and the transfer workers take steps
in any interleaving. -/

/-- Position of the orchestrator in the statements of `copyCmd.Run` that
follow the constructions: `Reporter.Start`, `Pusher.Start`, `Scanner.Start`,
`Wait`, `Reporter.Stop`, `Reporter.Report`, `Println`. -/
inductive Pos
  | start
  | reporterStarted
  | pusherStarted
  | scannerStarted
  | waited
  | reporterStopped
  | reported
  | finished
deriving DecidableEq, Repr

/-- Number of statements of the sequence already executed. -/
def Pos.rank : Pos → Nat
  | Pos.start => 0
  | Pos.reporterStarted => 1
  | Pos.pusherStarted => 2
  | Pos.scannerStarted => 3
  | Pos.waited => 4
  | Pos.reporterStopped => 5
  | Pos.reported => 6
  | Pos.finished => 7

/-- State of the enumeration loop of the Scanner. -/
inductive ScanState
  | notStarted
  | enumerating
  | done
deriving DecidableEq, Repr

/-- What is fixed for one run: the two worker counts passed by the command,
the capacity of the dump channel, and the pages of matched keys the store
returns before the cursor is back at its initial value (they depend on the
pattern, the scan count and the content of the store). -/
structure Config where
  exportRoutines : Int
  pushRoutines : Int
  capacity : Nat
  pages : List (List String)
deriving DecidableEq, Repr

/-- Modelled from the spec: the state of the Scanner and the Pusher packages
(sections 4.1, 4.2 and 5 of the specification), whose code is not in
`copy.go`, next to the position of the orchestrator.  Workers of one pool are
interchangeable, so a pool is kept as the number of its workers in each
state; an extraction worker that holds a snapshot it has not sent yet is
kept with the key of that snapshot. -/
structure Pipeline where
  pos : Pos
  scan : ScanState
  pagesLeft : List (List String)
  queue : List String
  idle : Nat
  sending : List String
  extractorsExited : Nat
  chan : List String
  closed : Bool
  transferring : Nat
  transfersExited : Nat
  wg : Nat
  scanned : Nat
  transferred : Nat
  failed : Nat
deriving DecidableEq, Repr

/-- The state before `Reporter.Start`: nothing is started, the channel is
open and empty, the counters are zero. -/
def Pipeline.initial (cfg : Config) : Pipeline :=
  { pos := Pos.start, scan := ScanState.notStarted, pagesLeft := cfg.pages, queue := [],
    idle := 0, sending := [], extractorsExited := 0, chan := [], closed := false,
    transferring := 0, transfersExited := 0, wg := 0, scanned := 0, transferred := 0,
    failed := 0 }

/-- The steps a schedule chooses from. -/
inductive Action
  | orchestrator
  | scanPage
  | extract (ok : Bool)
  | send (i : Nat)
  | finishScan
  | receive (ok : Bool)
  | exitTransfer
deriving DecidableEq, Repr

/-- The next statement of `copyCmd.Run` (lines 69 to 77 of `copy.go`).
`Pusher.Start` spawns `pushRoutines` transfer workers and registers them with
the wait group; `Scanner.Start` starts the enumeration and its pool and
returns at once; `Wait` can only be passed when the wait group is at zero. -/
def stepOrchestrator (cfg : Config) (s : Pipeline) : Option Pipeline :=
  match s.pos with
  | Pos.start => some { s with pos := Pos.reporterStarted }
  | Pos.reporterStarted =>
    some { s with pos := Pos.pusherStarted, transferring := cfg.pushRoutines.toNat,
                  wg := cfg.pushRoutines.toNat }
  | Pos.pusherStarted =>
    some { s with pos := Pos.scannerStarted, scan := ScanState.enumerating,
                  idle := cfg.exportRoutines.toNat }
  | Pos.scannerStarted => if s.wg = 0 then some { s with pos := Pos.waited } else none
  | Pos.waited => some { s with pos := Pos.reporterStopped }
  | Pos.reporterStopped => some { s with pos := Pos.reported }
  | Pos.reported => some { s with pos := Pos.finished }
  | Pos.finished => none

/-- Modelled from the spec: one step of the Scanner or the Pusher, whose code
is not in `copy.go` (sections 4.1 and 4.2).  The enumeration loop requests the
next page and hands its keys to the pool; an idle extraction worker takes a
key and either builds its snapshot (counted as scanned) or fails (counted as
failed, key skipped); a worker holding a snapshot sends it when the channel
is open and below capacity; when the pages are exhausted and no key or
snapshot is in flight the loop lets the workers exit and closes the channel;
a transfer worker receives a snapshot and restores it (counted as transferred
or failed), and exits, signalling the wait group, when the channel is closed
and empty. -/
def stepWorker (cfg : Config) (s : Pipeline) : Action → Option Pipeline
  | Action.orchestrator => none
  | Action.scanPage =>
    match s.scan, s.pagesLeft with
    | ScanState.enumerating, page :: more =>
      some { s with pagesLeft := more, queue := s.queue ++ page }
    | _, _ => none
  | Action.extract ok =>
    match s.queue with
    | key :: more =>
      if 0 < s.idle then
        if ok then
          some { s with queue := more, idle := s.idle - 1, sending := s.sending ++ [key],
                        scanned := s.scanned + 1 }
        else some { s with queue := more, failed := s.failed + 1 }
      else none
    | [] => none
  | Action.send i =>
    match s.sending.get? i with
    | some key =>
      if s.chan.length < cfg.capacity ∧ s.closed = false then
        some { s with sending := s.sending.eraseIdx i, idle := s.idle + 1,
                      chan := s.chan ++ [key] }
      else none
    | none => none
  | Action.finishScan =>
    if s.scan = ScanState.enumerating ∧ s.pagesLeft = [] ∧ s.queue = [] ∧ s.sending = [] then
      some { s with scan := ScanState.done, closed := true, idle := 0,
                    extractorsExited := s.extractorsExited + s.idle }
    else none
  | Action.receive ok =>
    match s.chan with
    | _ :: more =>
      if 0 < s.transferring then
        if ok then some { s with chan := more, transferred := s.transferred + 1 }
        else some { s with chan := more, failed := s.failed + 1 }
      else none
    | [] => none
  | Action.exitTransfer =>
    if 0 < s.transferring ∧ s.closed = true ∧ s.chan = [] then
      some { s with transferring := s.transferring - 1,
                    transfersExited := s.transfersExited + 1, wg := s.wg - 1 }
    else none

/-- One step of the whole system; `none` when the chosen step is not enabled. -/
def step (cfg : Config) (s : Pipeline) (a : Action) : Option Pipeline :=
  match a with
  | Action.orchestrator => stepOrchestrator cfg s
  | a => stepWorker cfg s a

/-- The state after the steps of a schedule, taken in order from `s`;
`none` when one of them is not enabled. -/
def execFrom (cfg : Config) (s : Pipeline) : List Action → Option Pipeline
  | [] => some s
  | a :: rest =>
    match step cfg s a with
    | some s1 => execFrom cfg s1 rest
    | none => none

/-- The state after a schedule, from the initial state. -/
def exec (cfg : Config) (schedule : List Action) : Option Pipeline :=
  execFrom cfg (Pipeline.initial cfg) schedule

/-- The property claimed of a state in which the wait has returned: the
enumeration is exhausted, the channel is closed and drained, and every
extraction worker and every transfer worker has exited. -/
def Pipeline.drained (cfg : Config) (s : Pipeline) : Prop :=
  s.scan = ScanState.done ∧ s.pagesLeft = [] ∧ s.queue = [] ∧
    s.closed = true ∧ s.chan = [] ∧
    s.idle = 0 ∧ s.sending = [] ∧ s.extractorsExited = cfg.exportRoutines.toNat ∧
    s.transferring = 0 ∧ s.transfersExited = cfg.pushRoutines.toNat

instance (cfg : Config) (s : Pipeline) : Decidable (s.drained cfg) := by
  unfold Pipeline.drained
  exact inferInstance

/-- A store with three matched keys in two pages, two extraction workers, one
transfer worker and a channel of capacity one. -/
def smallConfig : Config :=
  { exportRoutines := 2, pushRoutines := 1, capacity := 1, pages := [["a", "b"], ["c"]] }

/-- The same store with no transfer worker. -/
def noPusherConfig : Config :=
  { exportRoutines := 2, pushRoutines := 0, capacity := 1, pages := [["a", "b"], ["c"]] }

/-- A complete schedule for `smallConfig`: the key `b` fails to extract, `a`
and `c` are transferred. -/
def smallSchedule : List Action :=
  [Action.orchestrator, Action.orchestrator, Action.orchestrator,
    Action.scanPage, Action.extract true, Action.send 0, Action.extract false,
    Action.receive true, Action.scanPage, Action.extract true, Action.send 0,
    Action.receive true, Action.finishScan, Action.exitTransfer,
    Action.orchestrator, Action.orchestrator, Action.orchestrator, Action.orchestrator]

/-- A schedule for `noPusherConfig`: the orchestrator runs through the wait to
`Reporter.Stop` before the scanner takes any step. -/
def noPusherSchedule : List Action :=
  [Action.orchestrator, Action.orchestrator, Action.orchestrator, Action.orchestrator,
    Action.orchestrator]

/-- The orchestrator alone, through the wait to the last line. -/
def orchestratorOnly : List Action :=
  [Action.orchestrator, Action.orchestrator, Action.orchestrator, Action.orchestrator,
    Action.orchestrator, Action.orchestrator, Action.orchestrator]

/-- The state `orchestratorOnly` leads to under `noPusherConfig`: the command
has printed its last line while the enumeration has not requested a page. -/
def noPusherFinal : Pipeline :=
  { pos := Pos.finished, scan := ScanState.enumerating, pagesLeft := [["a", "b"], ["c"]],
    queue := [], idle := 2, sending := [], extractorsExited := 0, chan := [], closed := false,
    transferring := 0, transfersExited := 0, wg := 0, scanned := 0, transferred := 0,
    failed := 0 }

/-- The state `smallSchedule` leads to under `smallConfig`. -/
def smallFinal : Pipeline :=
  { pos := Pos.finished, scan := ScanState.done, pagesLeft := [], queue := [], idle := 0,
    sending := [], extractorsExited := 2, chan := [], closed := true, transferring := 0,
    transfersExited := 1, wg := 0, scanned := 2, transferred := 2, failed := 1 }

/-- The invariant of the pipeline: the wait group counts the live transfer
workers; the pools have the sizes they were started with; a transfer worker
has exited only if the channel is closed and empty; the channel is closed
only once the enumeration is over and no extraction worker is left; the
orchestrator is past the wait only with the wait group at zero. -/
def Inv (cfg : Config) (s : Pipeline) : Prop :=
  s.wg = s.transferring ∧
  (s.pos.rank < 2 → s.transferring = 0 ∧ s.transfersExited = 0) ∧
  (2 ≤ s.pos.rank → s.transferring + s.transfersExited = cfg.pushRoutines.toNat) ∧
  (0 < s.transfersExited → s.closed = true ∧ s.chan = []) ∧
  (s.closed = true → s.scan = ScanState.done ∧ s.pagesLeft = [] ∧ s.queue = [] ∧
    s.idle = 0 ∧ s.sending = []) ∧
  (4 ≤ s.pos.rank → s.wg = 0) ∧
  (s.pos.rank < 3 → s.scan = ScanState.notStarted) ∧
  (s.scan = ScanState.notStarted → s.idle = 0 ∧ s.sending = [] ∧ s.extractorsExited = 0 ∧
    s.closed = false) ∧
  (s.scan ≠ ScanState.notStarted →
    s.idle + s.sending.length + s.extractorsExited = cfg.exportRoutines.toNat)

/-! ## Theorems -/

/-- Each flag name registered by `init` writes the variable it is bound to in
`copy.go` and no other; an `int` value outside the 64-bit range is refused. -/
theorem init_binds_flags (x : String) (n : Int) (b : Bool) (hn : inInt64 n) :
    (init.set "pattern" (FlagValue.str x)).map (fun fs => fs.vars) =
        some { init.vars with pattern := x } ∧
      (init.set "scanCount" (FlagValue.int n)).map (fun fs => fs.vars) =
        some { init.vars with scanCount := n } ∧
      (init.set "report" (FlagValue.int n)).map (fun fs => fs.vars) =
        some { init.vars with report := n } ∧
      (init.set "exportRoutines" (FlagValue.int n)).map (fun fs => fs.vars) =
        some { init.vars with exportRoutines := n } ∧
      (init.set "pushRoutines" (FlagValue.int n)).map (fun fs => fs.vars) =
        some { init.vars with pushRoutines := n } ∧
      (init.set "source-tls" (FlagValue.bool b)).map (fun fs => fs.vars) =
        some { init.vars with sourceTLS := b } ∧
      (init.set "source-tls-insecure" (FlagValue.bool b)).map (fun fs => fs.vars) =
        some { init.vars with sourceTLSInsecure := b } ∧
      (init.set "dest-tls" (FlagValue.bool b)).map (fun fs => fs.vars) =
        some { init.vars with destTLS := b } ∧
      (init.set "dest-tls-insecure" (FlagValue.bool b)).map (fun fs => fs.vars) =
        some { init.vars with destTLSInsecure := b } ∧
      init.set "report" (FlagValue.int 9223372036854775808) = none := by
  have hacc : (FlagValue.int n).accepted = true := by
    simp [FlagValue.accepted, hn]
  refine ⟨rfl, ?_, ?_, ?_, ?_, rfl, rfl, rfl, rfl, by decide⟩
  · show (if (FlagValue.int n).accepted = true then _ else none).map _ = _
    rw [if_pos hacc]; rfl
  · show (if (FlagValue.int n).accepted = true then _ else none).map _ = _
    rw [if_pos hacc]; rfl
  · show (if (FlagValue.int n).accepted = true then _ else none).map _ = _
    rw [if_pos hacc]; rfl
  · show (if (FlagValue.int n).accepted = true then _ else none).map _ = _
    rw [if_pos hacc]; rfl

theorem M_bind_ok {α β : Type} (x : M α) (f : α → M β) (tr tr1 : List Event) (a : α)
    (h : x tr = (Except.ok a, tr1)) : (x >>= f) tr = f a tr1 := by
  show M.bind x f tr = f a tr1
  simp [M.bind, h]

theorem M_bind_error {α β : Type} (x : M α) (f : α → M β) (tr tr1 : List Event) (e : Abort)
    (h : x tr = (Except.error e, tr1)) : (x >>= f) tr = (Except.error e, tr1) := by
  show M.bind x f tr = (Except.error e, tr1)
  simp [M.bind, h]

/-- The source client fails: the run is the start line, the creation attempt, and the fatal log. -/
theorem Run_source_error (env : Env) (flags : Flags) (a0 : String) (rest : List String)
    (err : Error) (tr1 : List Event)
    (hs : createRedisClient env a0 flags.sourceTLS flags.sourceTLSInsecure
      [Event.Println "Start copying"] = (Except.ok (Except.error err), tr1)) :
    copyCmd.Run env flags (a0 :: rest) [] =
      (Except.error (Abort.exit 1), tr1 ++ [Event.Fatal err]) := by
  unfold copyCmd.Run
  simp only [bind, M.bind, fmt.Println, index, List.get?, List.nil_append, hs, orFatal, log.Fatal]

/-- The events of the command body once both clients `cs` and `ct` exist, the
history then being `tr2`: the trace is an initial part of `tr2` followed by
the twelve events `body`, it includes the construction of the Reporter, and
it is all of them when every call returns. -/
theorem Run_trace (env : Env) (flags : Flags) (a0 a1 : String) (rest : List String)
    (cs ct : Client) (tr1 tr2 : List Event)
    (hs : createRedisClient env a0 flags.sourceTLS flags.sourceTLSInsecure
      [Event.Println "Start copying"] = (Except.ok (Except.ok cs), tr1))
    (hd : createRedisClient env a1 flags.destTLS flags.destTLSInsecure tr1 =
      (Except.ok (Except.ok ct), tr2)) :
    ∃ (o : RedisScannerOpts) (r : Reporter) (s : Scanner) (ch : Chan) (p : Pusher)
      (wg : WaitGroup) (body : List Event),
      o = RedisScannerOpts.mk flags.pattern flags.scanCount flags.exportRoutines ∧
      r = env.NewReporter tr2 ∧
      s = env.NewScanner (tr2 ++ [Event.NewReporter]) cs o r ∧
      ch = env.GetDumpChannel (tr2 ++ [Event.NewReporter, Event.NewScanner cs o r]) s ∧
      p = env.NewRedisPusher
        (tr2 ++ [Event.NewReporter, Event.NewScanner cs o r, Event.GetDumpChannel s]) ct ch r ∧
      wg = WaitGroup.mk (tr2.length + 4) ∧
      body = [Event.NewReporter, Event.NewScanner cs o r,
        Event.GetDumpChannel s, Event.NewRedisPusher ct ch r, Event.NewWaitGroup,
        Event.ReporterStart r (Duration.mul time.Second (time.toDuration flags.report)),
        Event.PusherStart p wg flags.pushRoutines, Event.ScannerStart s, Event.Wait wg,
        Event.ReporterStop r, Event.ReporterReport r, Event.Println "Finish copying"] ∧
      (copyCmd.Run env flags (a0 :: a1 :: rest) []).2 <+: tr2 ++ body ∧
      tr2 ++ [Event.NewReporter] <+: (copyCmd.Run env flags (a0 :: a1 :: rest) []).2 ∧
      ((∀ tr, env.returns tr = true) →
        copyCmd.Run env flags (a0 :: a1 :: rest) [] = (Except.ok (), tr2 ++ body)) := by
  refine ⟨_, _, _, _, _, _, _, rfl, rfl, rfl, rfl, rfl, rfl, rfl, ?_, ?_, ?_⟩
  · unfold copyCmd.Run
    simp only [bind, M.bind, fmt.Println, index, List.get?, List.nil_append, hs, hd, orFatal,
      M.pure, callOut, newWaitGroup]
    iterate 11 (all_goals (try (split_ifs <;> try dsimp only)))
    all_goals simp
  · unfold copyCmd.Run
    simp only [bind, M.bind, fmt.Println, index, List.get?, List.nil_append, hs, hd, orFatal,
      M.pure, callOut, newWaitGroup]
    iterate 11 (all_goals (try (split_ifs <;> try dsimp only)))
    all_goals simp
  · intro hret
    unfold copyCmd.Run
    simp [bind, M.bind, fmt.Println, index, List.get?, hs, hd, orFatal,
      M.pure, callOut, newWaitGroup, hret]

theorem isClientCreation_Println (x : String) :
    (Event.Println x).isClientCreation = false := rfl

theorem isClientCreation_Fatal (err : Error) :
    (Event.Fatal err).isClientCreation = false := rfl

theorem isPipeline_Println (x : String) : (Event.Println x).isPipeline = false := rfl

theorem isPipeline_Fatal (err : Error) : (Event.Fatal err).isPipeline = false := rfl

/-- What `createRedisClient` does in either branch: one call into radix. -/
theorem createRedisClient_eq (env : Env) (addr : String) (useTLS insecureSkipVerify : Bool) :
    createRedisClient env addr useTLS insecureSkipVerify =
      callOut env (creationEvent addr useTLS insecureSkipVerify)
        (fun tr => if useTLS then env.NewPool tr "tcp" addr 4
            [PoolOpt.PoolConnFunc (ConnFunc.mk (TLSConfig.mk insecureSkipVerify))]
          else env.DefaultClientFunc tr "tcp" addr) := by
  cases useTLS <;>
    simp [createRedisClient, radix.NewPool, radix.DefaultClientFunc, creationEvent]

/-- The trace after `createRedisClient`: the history and the one creation. -/
theorem createRedisClient_trace (env : Env) (addr : String) (useTLS insecureSkipVerify : Bool)
    (tr : List Event) :
    (createRedisClient env addr useTLS insecureSkipVerify tr).2 =
      tr ++ [creationEvent addr useTLS insecureSkipVerify] := by
  rw [createRedisClient_eq]
  unfold callOut
  split_ifs <;> rfl

/-- A creation event is a client creation, dialled at its address, with TLS
as asked, and skipping verification only under TLS. -/
theorem creationEvent_facts (addr : String) (useTLS insecureSkipVerify : Bool) :
    (creationEvent addr useTLS insecureSkipVerify).isClientCreation = true ∧
      (creationEvent addr useTLS insecureSkipVerify).isPipeline = false ∧
      (creationEvent addr useTLS insecureSkipVerify).dialAddr? = some addr ∧
      (creationEvent addr useTLS insecureSkipVerify).usesTLS = useTLS ∧
      (creationEvent addr useTLS insecureSkipVerify).skipsVerify =
        (useTLS && insecureSkipVerify) ∧
      creationEvent addr useTLS insecureSkipVerify ≠ Event.Println "Finish copying" := by
  cases useTLS <;> cases insecureSkipVerify <;>
    simp [creationEvent, Event.isClientCreation, Event.isPipeline, Event.dialAddr?, Event.dial?,
      Event.usesTLS, Event.skipsVerify, DialCall.tlsConfig?, ConnFunc.call, List.getLast?]

/-- The destination client fails after the source client was created. -/
theorem Run_dest_error (env : Env) (flags : Flags) (a0 a1 : String) (rest : List String)
    (cs : Client) (err : Error) (tr1 tr2 : List Event)
    (hs : createRedisClient env a0 flags.sourceTLS flags.sourceTLSInsecure
      [Event.Println "Start copying"] = (Except.ok (Except.ok cs), tr1))
    (hd : createRedisClient env a1 flags.destTLS flags.destTLSInsecure tr1 =
      (Except.ok (Except.error err), tr2)) :
    copyCmd.Run env flags (a0 :: a1 :: rest) [] =
      (Except.error (Abort.exit 1), tr2 ++ [Event.Fatal err]) := by
  unfold copyCmd.Run
  simp only [bind, M.bind, fmt.Println, index, List.get?, List.nil_append, hs, hd, orFatal,
    log.Fatal, M.pure]

/-- The result of `createRedisClient` at a history: the call does not return,
or it returns an error, or it returns a client. -/
theorem createRedisClient_cases (env : Env) (addr : String) (useTLS insecureSkipVerify : Bool)
    (tr : List Event) :
    createRedisClient env addr useTLS insecureSkipVerify tr =
        (Except.error Abort.noReturn, tr ++ [creationEvent addr useTLS insecureSkipVerify]) ∨
      (∃ err, createRedisClient env addr useTLS insecureSkipVerify tr =
        (Except.ok (Except.error err),
          tr ++ [creationEvent addr useTLS insecureSkipVerify])) ∨
      (∃ c, createRedisClient env addr useTLS insecureSkipVerify tr =
        (Except.ok (Except.ok c), tr ++ [creationEvent addr useTLS insecureSkipVerify])) := by
  rw [createRedisClient_eq]
  unfold callOut
  split_ifs with h1 h2
  · right
    cases hx : env.NewPool tr "tcp" addr 4
        [PoolOpt.PoolConnFunc (ConnFunc.mk (TLSConfig.mk insecureSkipVerify))] with
    | error err => exact Or.inl ⟨err, by simp only [hx]⟩
    | ok c => exact Or.inr ⟨c, by simp only [hx]⟩
  · right
    cases hx : env.DefaultClientFunc tr "tcp" addr with
    | error err => exact Or.inl ⟨err, by simp only [hx]⟩
    | ok c => exact Or.inr ⟨c, by simp only [hx]⟩
  · exact Or.inl rfl

/-- A run stops at the source creation when that call does not return. -/
theorem Run_source_noReturn (env : Env) (flags : Flags) (a0 : String) (rest : List String)
    (tr1 : List Event)
    (hs : createRedisClient env a0 flags.sourceTLS flags.sourceTLSInsecure
      [Event.Println "Start copying"] = (Except.error Abort.noReturn, tr1)) :
    copyCmd.Run env flags (a0 :: rest) [] = (Except.error Abort.noReturn, tr1) := by
  unfold copyCmd.Run
  simp only [bind, M.bind, fmt.Println, index, List.get?, List.nil_append, hs]

/-- A run stops at the destination creation when that call does not return. -/
theorem Run_dest_noReturn (env : Env) (flags : Flags) (a0 a1 : String) (rest : List String)
    (cs : Client) (tr1 tr2 : List Event)
    (hs : createRedisClient env a0 flags.sourceTLS flags.sourceTLSInsecure
      [Event.Println "Start copying"] = (Except.ok (Except.ok cs), tr1))
    (hd : createRedisClient env a1 flags.destTLS flags.destTLSInsecure tr1 =
      (Except.error Abort.noReturn, tr2)) :
    copyCmd.Run env flags (a0 :: a1 :: rest) [] = (Except.error Abort.noReturn, tr2) := by
  unfold copyCmd.Run
  simp only [bind, M.bind, fmt.Println, index, List.get?, List.nil_append, hs, hd, orFatal,
    M.pure]

/-- The five shapes of a run on at least two arguments. -/
theorem Run_shape (env : Env) (flags : Flags) (a0 a1 : String) (rest : List String) :
    copyCmd.Run env flags (a0 :: a1 :: rest) [] =
        (Except.error Abort.noReturn, [Event.Println "Start copying",
          creationEvent a0 flags.sourceTLS flags.sourceTLSInsecure]) ∨
      (∃ err, createRedisClient env a0 flags.sourceTLS flags.sourceTLSInsecure
          [Event.Println "Start copying"] = (Except.ok (Except.error err),
            [Event.Println "Start copying",
              creationEvent a0 flags.sourceTLS flags.sourceTLSInsecure]) ∧
        copyCmd.Run env flags (a0 :: a1 :: rest) [] =
          (Except.error (Abort.exit 1), [Event.Println "Start copying",
            creationEvent a0 flags.sourceTLS flags.sourceTLSInsecure, Event.Fatal err])) ∨
      (∃ cs tr1, createRedisClient env a0 flags.sourceTLS flags.sourceTLSInsecure
          [Event.Println "Start copying"] = (Except.ok (Except.ok cs), tr1) ∧
        (copyCmd.Run env flags (a0 :: a1 :: rest) [] =
            (Except.error Abort.noReturn, [Event.Println "Start copying",
              creationEvent a0 flags.sourceTLS flags.sourceTLSInsecure,
              creationEvent a1 flags.destTLS flags.destTLSInsecure]) ∨
          (∃ err, copyCmd.Run env flags (a0 :: a1 :: rest) [] =
            (Except.error (Abort.exit 1), [Event.Println "Start copying",
              creationEvent a0 flags.sourceTLS flags.sourceTLSInsecure,
              creationEvent a1 flags.destTLS flags.destTLSInsecure, Event.Fatal err])) ∨
          (∃ ct tr2, createRedisClient env a1 flags.destTLS flags.destTLSInsecure tr1 =
            (Except.ok (Except.ok ct), tr2)))) := by
  rcases createRedisClient_cases env a0 flags.sourceTLS flags.sourceTLSInsecure
      [Event.Println "Start copying"] with h | ⟨err, h⟩ | ⟨cs, h⟩
  · exact Or.inl (Run_source_noReturn env flags a0 (a1 :: rest) _ h)
  · exact Or.inr (Or.inl ⟨err, h, Run_source_error env flags a0 (a1 :: rest) err _ h⟩)
  · refine Or.inr (Or.inr ⟨cs, _, h, ?_⟩)
    rcases createRedisClient_cases env a1 flags.destTLS flags.destTLSInsecure
        ([Event.Println "Start copying"] ++
          [creationEvent a0 flags.sourceTLS flags.sourceTLSInsecure]) with h2 | ⟨err, h2⟩ | ⟨ct, h2⟩
    · exact Or.inl (Run_dest_noReturn env flags a0 a1 rest cs _ _ h h2)
    · exact Or.inr (Or.inl ⟨err, Run_dest_error env flags a0 a1 rest cs err _ _ h h2⟩)
    · exact Or.inr (Or.inr ⟨ct, _, h2⟩)

/-- Claim C1.  For every pair of addresses and every setting of the flags: when
creating the source client returns an error, the run is exactly the start
line, that one creation attempt and the fatal log of that error, and it ends
with exit status 1; when the source client is created and creating the
destination client returns an error, the run is the start line, the two
creation attempts and the fatal log.  In both cases no event constructs or
starts the Reporter, Scanner or Pusher, Report is not called and the line
`Finish copying` is not printed. -/
theorem C1_client_creation_error_is_fatal (env : Env) (flags : Flags) (a0 a1 : String)
    (rest : List String) :
    (∀ (err : Error) (tr1 : List Event),
      createRedisClient env a0 flags.sourceTLS flags.sourceTLSInsecure
        [Event.Println "Start copying"] = (Except.ok (Except.error err), tr1) →
      ∃ e, e.isClientCreation = true ∧ e.dialAddr? = some a0 ∧
        copyCmd.Run env flags (a0 :: a1 :: rest) [] =
          (Except.error (Abort.exit 1), [Event.Println "Start copying", e, Event.Fatal err]) ∧
        clientCreations (copyCmd.Run env flags (a0 :: a1 :: rest) []).2 = [e] ∧
        ∀ x ∈ (copyCmd.Run env flags (a0 :: a1 :: rest) []).2,
          x.isPipeline = false ∧ x ≠ Event.Println "Finish copying") ∧
    (∀ (cs : Client) (err : Error) (tr1 tr2 : List Event),
      createRedisClient env a0 flags.sourceTLS flags.sourceTLSInsecure
        [Event.Println "Start copying"] = (Except.ok (Except.ok cs), tr1) →
      createRedisClient env a1 flags.destTLS flags.destTLSInsecure tr1 =
        (Except.ok (Except.error err), tr2) →
      ∃ e1 e2, e1.isClientCreation = true ∧ e2.isClientCreation = true ∧
        e1.dialAddr? = some a0 ∧ e2.dialAddr? = some a1 ∧
        copyCmd.Run env flags (a0 :: a1 :: rest) [] =
          (Except.error (Abort.exit 1),
            [Event.Println "Start copying", e1, e2, Event.Fatal err]) ∧
        ∀ x ∈ (copyCmd.Run env flags (a0 :: a1 :: rest) []).2,
          x.isPipeline = false ∧ x ≠ Event.Println "Finish copying") := by
  constructor
  · intro err tr1 hs
    have ht := createRedisClient_trace env a0 flags.sourceTLS flags.sourceTLSInsecure
      [Event.Println "Start copying"]
    rw [hs] at ht
    simp only at ht
    have hrun := Run_source_error env flags a0 (a1 :: rest) err tr1 hs
    obtain ⟨f1, f2, f3, -, -, f6⟩ :=
      creationEvent_facts a0 flags.sourceTLS flags.sourceTLSInsecure
    refine ⟨creationEvent a0 flags.sourceTLS flags.sourceTLSInsecure, f1, f3, ?_, ?_, ?_⟩
    · rw [hrun, ht]; simp
    · rw [hrun, ht]
      simp [clientCreations, List.filter_cons, isClientCreation_Println,
        isClientCreation_Fatal, f1]
    · rw [hrun, ht]
      simp [isPipeline_Println, isPipeline_Fatal, f2, f6]
  · intro cs err tr1 tr2 hs hd
    have ht := createRedisClient_trace env a0 flags.sourceTLS flags.sourceTLSInsecure
      [Event.Println "Start copying"]
    rw [hs] at ht
    simp only at ht
    have ht2 := createRedisClient_trace env a1 flags.destTLS flags.destTLSInsecure tr1
    rw [hd] at ht2
    simp only at ht2
    have hrun := Run_dest_error env flags a0 a1 rest cs err tr1 tr2 hs hd
    obtain ⟨f1, f2, f3, -, -, f6⟩ :=
      creationEvent_facts a0 flags.sourceTLS flags.sourceTLSInsecure
    obtain ⟨g1, g2, g3, -, -, g6⟩ :=
      creationEvent_facts a1 flags.destTLS flags.destTLSInsecure
    refine ⟨creationEvent a0 flags.sourceTLS flags.sourceTLSInsecure,
      creationEvent a1 flags.destTLS flags.destTLSInsecure, f1, g1, f3, g3, ?_, ?_⟩
    · rw [hrun, ht2, ht]; simp
    · rw [hrun, ht2, ht]
      simp [isPipeline_Println, isPipeline_Fatal, f2, f6, g2, g6]

/-- Witness of `C1_client_creation_error_is_fatal`: a refused source and a
refused destination. -/
theorem C1_client_creation_error_is_fatal_witness :
    (copyCmd.Run failSourceEnv init.vars ["src:6379", "dst:6379"] []).1 =
        Except.error (Abort.exit 1) ∧
      (copyCmd.Run failSourceEnv init.vars ["src:6379", "dst:6379"] []).2.length = 3 ∧
      (copyCmd.Run failDestEnv init.vars ["src:6379", "dst:6379"] []).1 =
        Except.error (Abort.exit 1) ∧
      (copyCmd.Run failDestEnv init.vars ["src:6379", "dst:6379"] []).2.length = 4 := by
  have h := C1_client_creation_error_is_fatal failSourceEnv init.vars "src:6379" "dst:6379" []
  have h2 := C1_client_creation_error_is_fatal failDestEnv init.vars "src:6379" "dst:6379" []
  obtain ⟨e, _, _, hrun, _⟩ := h.1 { msg := "connection refused" } _ rfl
  obtain ⟨e1, e2, _, _, _, _, hrun2, _⟩ :=
    h2.2 { handle := 1 } { msg := "auth failed" } _ _ rfl rfl
  rw [hrun, hrun2]
  simp

/-- The history once both clients exist: the start line and the two creations. -/
theorem clients_history (env : Env) (flags : Flags) (a0 a1 : String)
    (cs ct : Client) (tr1 tr2 : List Event)
    (hs : createRedisClient env a0 flags.sourceTLS flags.sourceTLSInsecure
      [Event.Println "Start copying"] = (Except.ok (Except.ok cs), tr1))
    (hd : createRedisClient env a1 flags.destTLS flags.destTLSInsecure tr1 =
      (Except.ok (Except.ok ct), tr2)) :
    tr2 = [Event.Println "Start copying",
      creationEvent a0 flags.sourceTLS flags.sourceTLSInsecure,
      creationEvent a1 flags.destTLS flags.destTLSInsecure] := by
  have ht := createRedisClient_trace env a0 flags.sourceTLS flags.sourceTLSInsecure
    [Event.Println "Start copying"]
  rw [hs] at ht
  have ht2 := createRedisClient_trace env a1 flags.destTLS flags.destTLSInsecure tr1
  rw [hd] at ht2
  simp only at ht ht2
  rw [ht2, ht]
  rfl

/-- A pipeline event of a trace that starts with the clients history lies
after that history. -/
theorem pipeline_mem_body (flags : Flags) (a0 a1 : String) (tr body : List Event) (e : Event)
    (hpre : tr <+: [Event.Println "Start copying",
      creationEvent a0 flags.sourceTLS flags.sourceTLSInsecure,
      creationEvent a1 flags.destTLS flags.destTLSInsecure] ++ body)
    (he : e.isPipeline = true) (hmem : e ∈ tr) : e ∈ body := by
  have h := hpre.subset hmem
  obtain ⟨-, f2, -, -, -, -⟩ := creationEvent_facts a0 flags.sourceTLS flags.sourceTLSInsecure
  obtain ⟨-, g2, -, -, -, -⟩ := creationEvent_facts a1 flags.destTLS flags.destTLSInsecure
  simp only [List.mem_append, List.mem_cons, List.mem_singleton, List.not_mem_nil,
    or_false] at h
  rcases h with (h | h | h) | h
  · rw [h, isPipeline_Println] at he; cases he
  · rw [h, f2] at he; cases he
  · rw [h, g2] at he; cases he
  · exact h

/-- The complete run with the default flags when every call returns. -/
theorem demoRun_trace :
    copyCmd.Run demoEnv init.vars ["src:6379", "dst:6379"] [] =
      (Except.ok (),
        [Event.Println "Start copying", Event.DefaultClientFunc "tcp" "src:6379",
          Event.DefaultClientFunc "tcp" "dst:6379", Event.NewReporter,
          Event.NewScanner { handle := 1 }
            (RedisScannerOpts.mk "*" 100 30) { handle := 3 },
          Event.GetDumpChannel { handle := 4 },
          Event.NewRedisPusher { handle := 2 } { handle := 5 } { handle := 3 },
          Event.NewWaitGroup, Event.ReporterStart { handle := 3 } 1000000000,
          Event.PusherStart { handle := 6 } { handle := 7 } 30,
          Event.ScannerStart { handle := 4 }, Event.Wait { handle := 7 },
          Event.ReporterStop { handle := 3 }, Event.ReporterReport { handle := 3 },
          Event.Println "Finish copying"]) :=
  Prod.ext rfl rfl

/-- How far the command body gets once both clients exist.  With `w` the
history through the call of `Wait`: the trace is an initial part of the whole
body; it stops within `w`, or `Wait` has returned and `Reporter.Stop` is the
next event; it stops at `Reporter.Stop`, or that call has returned and
`Reporter.Report` is next; it stops at `Reporter.Report`, or that call has
returned and the run ends normally after the last line. -/
theorem Run_progress (env : Env) (flags : Flags) (a0 a1 : String) (rest : List String)
    (cs ct : Client) (tr1 tr2 : List Event)
    (hs : createRedisClient env a0 flags.sourceTLS flags.sourceTLSInsecure
      [Event.Println "Start copying"] = (Except.ok (Except.ok cs), tr1))
    (hd : createRedisClient env a1 flags.destTLS flags.destTLSInsecure tr1 =
      (Except.ok (Except.ok ct), tr2)) :
    ∃ (o : RedisScannerOpts) (r : Reporter) (s : Scanner) (ch : Chan) (p : Pusher)
      (wg : WaitGroup) (w : List Event),
      o = RedisScannerOpts.mk flags.pattern flags.scanCount flags.exportRoutines ∧
      r = env.NewReporter tr2 ∧
      s = env.NewScanner (tr2 ++ [Event.NewReporter]) cs o r ∧
      ch = env.GetDumpChannel (tr2 ++ [Event.NewReporter, Event.NewScanner cs o r]) s ∧
      p = env.NewRedisPusher
        (tr2 ++ [Event.NewReporter, Event.NewScanner cs o r, Event.GetDumpChannel s]) ct ch r ∧
      wg = WaitGroup.mk (tr2.length + 4) ∧
      w = tr2 ++ [Event.NewReporter, Event.NewScanner cs o r,
        Event.GetDumpChannel s, Event.NewRedisPusher ct ch r, Event.NewWaitGroup,
        Event.ReporterStart r (Duration.mul time.Second (time.toDuration flags.report)),
        Event.PusherStart p wg flags.pushRoutines, Event.ScannerStart s, Event.Wait wg] ∧
      (copyCmd.Run env flags (a0 :: a1 :: rest) []).2 <+:
        w ++ [Event.ReporterStop r, Event.ReporterReport r, Event.Println "Finish copying"] ∧
      ((∀ tr, env.returns tr = true) →
        copyCmd.Run env flags (a0 :: a1 :: rest) [] = (Except.ok (),
          w ++ [Event.ReporterStop r, Event.ReporterReport r,
            Event.Println "Finish copying"])) ∧
      ((copyCmd.Run env flags (a0 :: a1 :: rest) []).2 <+: w ∨
        (env.returns w = true ∧
          w ++ [Event.ReporterStop r] <+: (copyCmd.Run env flags (a0 :: a1 :: rest) []).2)) ∧
      ((copyCmd.Run env flags (a0 :: a1 :: rest) []).2 <+: w ++ [Event.ReporterStop r] ∨
        (env.returns (w ++ [Event.ReporterStop r]) = true ∧
          w ++ [Event.ReporterStop r, Event.ReporterReport r] <+:
            (copyCmd.Run env flags (a0 :: a1 :: rest) []).2)) ∧
      ((copyCmd.Run env flags (a0 :: a1 :: rest) []).2 <+:
          w ++ [Event.ReporterStop r, Event.ReporterReport r] ∨
        (env.returns (w ++ [Event.ReporterStop r, Event.ReporterReport r]) = true ∧
          copyCmd.Run env flags (a0 :: a1 :: rest) [] = (Except.ok (),
            w ++ [Event.ReporterStop r, Event.ReporterReport r,
              Event.Println "Finish copying"]))) := by
  refine ⟨_, _, _, _, _, _, _, rfl, rfl, rfl, rfl, rfl, rfl, rfl, ?_, ?_, ?_, ?_, ?_⟩
  · unfold copyCmd.Run
    simp only [bind, M.bind, fmt.Println, index, List.get?, List.nil_append, hs, hd, orFatal,
      M.pure, callOut, newWaitGroup]
    iterate 11 (all_goals (try (split_ifs <;> try dsimp only)))
    all_goals simp
  · intro hret
    unfold copyCmd.Run
    simp [bind, M.bind, fmt.Println, index, List.get?, hs, hd, orFatal,
      M.pure, callOut, newWaitGroup, hret]
  all_goals
    unfold copyCmd.Run
    simp only [bind, M.bind, fmt.Println, index, List.get?, List.nil_append, hs, hd, orFatal,
      M.pure, callOut, newWaitGroup]
    iterate 11 (all_goals (try (split_ifs <;> try dsimp only)))
    all_goals first
      | (left; simp; done)
      | (right; simp only [List.append_assoc, List.cons_append, List.nil_append,
          List.length_append, List.length_cons, List.length_nil] at *; simp [*]; done)

/-- Claim C3.  On every run in which both clients are created, the trace is an
initial part of: the history of the two creations, the five constructions
(Reporter, Scanner, dump channel, Pusher, wait group), then Reporter.Start,
Pusher.Start with wait group `wg`, Scanner.Start, `wg`.Wait, Reporter.Stop,
Reporter.Report and the line `Finish copying`, in this order.  When every
call returns the run ends normally with exactly this trace, in which each of
the seven final events occurs exactly once.  Whatever the collaborators do:
if Reporter.Stop, Reporter.Report or the last line is in the trace, then the
call of `wg`.Wait has returned and Reporter.Stop follows it immediately; if
Reporter.Report or the last line is in the trace, then Reporter.Stop has
returned and Reporter.Report follows it immediately; if the last line is in
the trace, then Reporter.Report has returned and the run ended normally with
the whole sequence. -/
theorem C3_call_sequence (env : Env) (flags : Flags) (a0 a1 : String) (rest : List String)
    (cs ct : Client) (tr1 tr2 : List Event)
    (hs : createRedisClient env a0 flags.sourceTLS flags.sourceTLSInsecure
      [Event.Println "Start copying"] = (Except.ok (Except.ok cs), tr1))
    (hd : createRedisClient env a1 flags.destTLS flags.destTLSInsecure tr1 =
      (Except.ok (Except.ok ct), tr2)) :
    ∃ (e1 e2 : Event) (o : RedisScannerOpts) (r : Reporter) (s : Scanner) (ch : Chan)
      (p : Pusher) (wg : WaitGroup) (d : Duration) (made calls : List Event),
      e1.isClientCreation = true ∧ e2.isClientCreation = true ∧
      made = [Event.Println "Start copying", e1, e2, Event.NewReporter,
        Event.NewScanner cs o r, Event.GetDumpChannel s, Event.NewRedisPusher ct ch r,
        Event.NewWaitGroup] ∧
      calls = [Event.ReporterStart r d, Event.PusherStart p wg flags.pushRoutines,
        Event.ScannerStart s, Event.Wait wg, Event.ReporterStop r, Event.ReporterReport r,
        Event.Println "Finish copying"] ∧
      (copyCmd.Run env flags (a0 :: a1 :: rest) []).2 <+: made ++ calls ∧
      ((∀ tr, env.returns tr = true) →
        copyCmd.Run env flags (a0 :: a1 :: rest) [] = (Except.ok (), made ++ calls) ∧
        ∀ e ∈ calls, (copyCmd.Run env flags (a0 :: a1 :: rest) []).2.count e = 1) ∧
      (∀ r1, (Event.ReporterStop r1 ∈ (copyCmd.Run env flags (a0 :: a1 :: rest) []).2 ∨
          Event.ReporterReport r1 ∈ (copyCmd.Run env flags (a0 :: a1 :: rest) []).2 ∨
          Event.Println "Finish copying" ∈ (copyCmd.Run env flags (a0 :: a1 :: rest) []).2) →
        env.returns (made ++ [Event.ReporterStart r d,
          Event.PusherStart p wg flags.pushRoutines, Event.ScannerStart s,
          Event.Wait wg]) = true ∧
        made ++ [Event.ReporterStart r d, Event.PusherStart p wg flags.pushRoutines,
          Event.ScannerStart s, Event.Wait wg, Event.ReporterStop r] <+:
          (copyCmd.Run env flags (a0 :: a1 :: rest) []).2) ∧
      (∀ r1, (Event.ReporterReport r1 ∈ (copyCmd.Run env flags (a0 :: a1 :: rest) []).2 ∨
          Event.Println "Finish copying" ∈ (copyCmd.Run env flags (a0 :: a1 :: rest) []).2) →
        env.returns (made ++ [Event.ReporterStart r d,
          Event.PusherStart p wg flags.pushRoutines, Event.ScannerStart s,
          Event.Wait wg, Event.ReporterStop r]) = true ∧
        made ++ [Event.ReporterStart r d, Event.PusherStart p wg flags.pushRoutines,
          Event.ScannerStart s, Event.Wait wg, Event.ReporterStop r,
          Event.ReporterReport r] <+: (copyCmd.Run env flags (a0 :: a1 :: rest) []).2) ∧
      (Event.Println "Finish copying" ∈ (copyCmd.Run env flags (a0 :: a1 :: rest) []).2 →
        env.returns (made ++ [Event.ReporterStart r d,
          Event.PusherStart p wg flags.pushRoutines, Event.ScannerStart s,
          Event.Wait wg, Event.ReporterStop r, Event.ReporterReport r]) = true ∧
        copyCmd.Run env flags (a0 :: a1 :: rest) [] = (Except.ok (), made ++ calls)) := by
  obtain ⟨o, r, s, ch, p, wg, w, -, -, -, -, -, -, hw, hpre, hall, p1, p2, p3⟩ :=
    Run_progress env flags a0 a1 rest cs ct tr1 tr2 hs hd
  have htr2 := clients_history env flags a0 a1 cs ct tr1 tr2 hs hd
  obtain ⟨f1, f2, -, -, -, f6⟩ := creationEvent_facts a0 flags.sourceTLS flags.sourceTLSInsecure
  obtain ⟨g1, g2, -, -, -, g6⟩ := creationEvent_facts a1 flags.destTLS flags.destTLSInsecure
  rw [htr2] at hw
  subst hw
  generalize creationEvent a0 flags.sourceTLS flags.sourceTLSInsecure = c1 at *
  generalize creationEvent a1 flags.destTLS flags.destTLSInsecure = c2 at *
  have hc1 : ∀ e : Event, e.isPipeline = true → ¬ c1 = e ∧ ¬ e = c1 := by
    intro e he
    constructor
    · intro h; rw [← h, f2] at he; cases he
    · intro h; rw [h, f2] at he; cases he
  have hc2 : ∀ e : Event, e.isPipeline = true → ¬ c2 = e ∧ ¬ e = c2 := by
    intro e he
    constructor
    · intro h; rw [← h, g2] at he; cases he
    · intro h; rw [h, g2] at he; cases he
  have hstop : ∀ r1 (l : List Event), l <+: [Event.Println "Start copying", c1, c2] ++
      [Event.NewReporter, Event.NewScanner cs o r, Event.GetDumpChannel s,
        Event.NewRedisPusher ct ch r, Event.NewWaitGroup,
        Event.ReporterStart r (Duration.mul time.Second (time.toDuration flags.report)),
        Event.PusherStart p wg flags.pushRoutines, Event.ScannerStart s, Event.Wait wg] →
      Event.ReporterStop r1 ∉ l := by
    intro r1 l hl hm
    have := hl.subset hm
    simp [(hc1 (Event.ReporterStop r1) rfl).2, (hc2 (Event.ReporterStop r1) rfl).2] at this
  have hrep : ∀ r1 (l : List Event), l <+: [Event.Println "Start copying", c1, c2] ++
      [Event.NewReporter, Event.NewScanner cs o r, Event.GetDumpChannel s,
        Event.NewRedisPusher ct ch r, Event.NewWaitGroup,
        Event.ReporterStart r (Duration.mul time.Second (time.toDuration flags.report)),
        Event.PusherStart p wg flags.pushRoutines, Event.ScannerStart s, Event.Wait wg] ++
      [Event.ReporterStop r] →
      Event.ReporterReport r1 ∉ l := by
    intro r1 l hl hm
    have := hl.subset hm
    simp [(hc1 (Event.ReporterReport r1) rfl).2, (hc2 (Event.ReporterReport r1) rfl).2] at this
  have hfin : ∀ (l : List Event), l <+: [Event.Println "Start copying", c1, c2] ++
      [Event.NewReporter, Event.NewScanner cs o r, Event.GetDumpChannel s,
        Event.NewRedisPusher ct ch r, Event.NewWaitGroup,
        Event.ReporterStart r (Duration.mul time.Second (time.toDuration flags.report)),
        Event.PusherStart p wg flags.pushRoutines, Event.ScannerStart s, Event.Wait wg] ++
      [Event.ReporterStop r, Event.ReporterReport r] →
      Event.Println "Finish copying" ∉ l := by
    intro l hl hm
    have := hl.subset hm
    simp [f6.symm, g6.symm] at this
  have q3 : Event.Println "Finish copying" ∈ (copyCmd.Run env flags (a0 :: a1 :: rest) []).2 →
      env.returns ([Event.Println "Start copying", c1, c2] ++
        [Event.NewReporter, Event.NewScanner cs o r, Event.GetDumpChannel s,
          Event.NewRedisPusher ct ch r, Event.NewWaitGroup,
          Event.ReporterStart r (Duration.mul time.Second (time.toDuration flags.report)),
          Event.PusherStart p wg flags.pushRoutines, Event.ScannerStart s, Event.Wait wg] ++
        [Event.ReporterStop r, Event.ReporterReport r]) = true ∧
      copyCmd.Run env flags (a0 :: a1 :: rest) [] = (Except.ok (),
        [Event.Println "Start copying", c1, c2] ++
        [Event.NewReporter, Event.NewScanner cs o r, Event.GetDumpChannel s,
          Event.NewRedisPusher ct ch r, Event.NewWaitGroup,
          Event.ReporterStart r (Duration.mul time.Second (time.toDuration flags.report)),
          Event.PusherStart p wg flags.pushRoutines, Event.ScannerStart s, Event.Wait wg] ++
        [Event.ReporterStop r, Event.ReporterReport r, Event.Println "Finish copying"]) := by
    intro hm
    rcases p3 with h | h
    · exact (hfin _ h hm).elim
    · exact h
  have q2 : ∀ r1, (Event.ReporterReport r1 ∈ (copyCmd.Run env flags (a0 :: a1 :: rest) []).2 ∨
        Event.Println "Finish copying" ∈ (copyCmd.Run env flags (a0 :: a1 :: rest) []).2) →
      env.returns ([Event.Println "Start copying", c1, c2] ++
        [Event.NewReporter, Event.NewScanner cs o r, Event.GetDumpChannel s,
          Event.NewRedisPusher ct ch r, Event.NewWaitGroup,
          Event.ReporterStart r (Duration.mul time.Second (time.toDuration flags.report)),
          Event.PusherStart p wg flags.pushRoutines, Event.ScannerStart s, Event.Wait wg] ++
        [Event.ReporterStop r]) = true ∧
      [Event.Println "Start copying", c1, c2] ++
        [Event.NewReporter, Event.NewScanner cs o r, Event.GetDumpChannel s,
          Event.NewRedisPusher ct ch r, Event.NewWaitGroup,
          Event.ReporterStart r (Duration.mul time.Second (time.toDuration flags.report)),
          Event.PusherStart p wg flags.pushRoutines, Event.ScannerStart s, Event.Wait wg] ++
        [Event.ReporterStop r, Event.ReporterReport r] <+:
        (copyCmd.Run env flags (a0 :: a1 :: rest) []).2 := by
    intro r1 hm
    rcases p2 with h | h
    · rcases hm with hm | hm
      · exact (hrep r1 _ h hm).elim
      · exact (hfin _ (h.trans ⟨[Event.ReporterReport r], by simp⟩) hm).elim
    · exact h
  have q1 : ∀ r1, (Event.ReporterStop r1 ∈ (copyCmd.Run env flags (a0 :: a1 :: rest) []).2 ∨
        Event.ReporterReport r1 ∈ (copyCmd.Run env flags (a0 :: a1 :: rest) []).2 ∨
        Event.Println "Finish copying" ∈ (copyCmd.Run env flags (a0 :: a1 :: rest) []).2) →
      env.returns ([Event.Println "Start copying", c1, c2] ++
        [Event.NewReporter, Event.NewScanner cs o r, Event.GetDumpChannel s,
          Event.NewRedisPusher ct ch r, Event.NewWaitGroup,
          Event.ReporterStart r (Duration.mul time.Second (time.toDuration flags.report)),
          Event.PusherStart p wg flags.pushRoutines, Event.ScannerStart s, Event.Wait wg]) =
          true ∧
      [Event.Println "Start copying", c1, c2] ++
        [Event.NewReporter, Event.NewScanner cs o r, Event.GetDumpChannel s,
          Event.NewRedisPusher ct ch r, Event.NewWaitGroup,
          Event.ReporterStart r (Duration.mul time.Second (time.toDuration flags.report)),
          Event.PusherStart p wg flags.pushRoutines, Event.ScannerStart s, Event.Wait wg] ++
        [Event.ReporterStop r] <+: (copyCmd.Run env flags (a0 :: a1 :: rest) []).2 := by
    intro r1 hm
    rcases p1 with h | h
    · rcases hm with hm | hm | hm
      · exact (hstop r1 _ h hm).elim
      · exact (hrep r1 _ (h.trans ⟨[Event.ReporterStop r], rfl⟩) hm).elim
      · exact (hfin _ (h.trans ⟨[Event.ReporterStop r, Event.ReporterReport r], by simp⟩)
          hm).elim
    · exact h
  refine ⟨c1, c2, o, r, s, ch, p, wg,
    Duration.mul time.Second (time.toDuration flags.report), _, _, f1, g1, rfl, rfl,
    ?_, ?_, ?_, ?_, ?_⟩
  · simpa using hpre
  · intro hret
    have hrun := hall hret
    refine ⟨by simpa using hrun, ?_⟩
    rw [hrun]
    intro e he
    simp only [List.mem_cons, List.mem_singleton, List.not_mem_nil, or_false] at he
    have hn1 : e ≠ c1 := by
      rintro rfl
      rcases he with h | h | h | h | h | h | h <;> first
        | exact f6 h
        | (rw [h] at f2; cases f2)
    have hn2 : e ≠ c2 := by
      rintro rfl
      rcases he with h | h | h | h | h | h | h <;> first
        | exact g6 h
        | (rw [h] at g2; cases g2)
    rcases he with h | h | h | h | h | h | h <;> subst h <;>
      simp [List.count_cons, Ne.symm hn1, Ne.symm hn2]
  · intro r1 hm
    simpa using q1 r1 hm
  · intro r1 hm
    simpa using q2 r1 hm
  · intro hm
    simpa using q3 hm

/-- Witness of `C3_call_sequence`: the run with the default flags in an
environment where every call returns; its trace holds `Reporter.Stop`, after
the returned call of `Wait`. -/
theorem C3_call_sequence_witness :
    (copyCmd.Run demoEnv init.vars ["src:6379", "dst:6379"] []).1 = Except.ok () ∧
      (copyCmd.Run demoEnv init.vars ["src:6379", "dst:6379"] []).2.length = 15 ∧
      Event.ReporterStop { handle := 3 } ∈
        (copyCmd.Run demoEnv init.vars ["src:6379", "dst:6379"] []).2 ∧
      ∃ pre wg, demoEnv.returns (pre ++ [Event.Wait wg]) = true ∧
        pre ++ [Event.Wait wg] <+:
          (copyCmd.Run demoEnv init.vars ["src:6379", "dst:6379"] []).2 := by
  obtain ⟨e1, e2, o, r, s, ch, p, wg, d, made, calls, -, -, hmade, hcalls, -, hall, hwait, -,
      -⟩ :=
    C3_call_sequence demoEnv init.vars "src:6379" "dst:6379" [] { handle := 1 } { handle := 2 }
      _ _ rfl rfl
  have hrun := (hall (fun _ => rfl)).1
  have hmem : Event.ReporterStop { handle := 3 } ∈
      (copyCmd.Run demoEnv init.vars ["src:6379", "dst:6379"] []).2 := by
    rw [demoRun_trace]
    simp
  obtain ⟨hret, hprefix⟩ := hwait { handle := 3 } (Or.inl hmem)
  refine ⟨?_, ?_, hmem, made ++ [Event.ReporterStart r d,
    Event.PusherStart p wg init.vars.pushRoutines, Event.ScannerStart s], wg, ?_, ?_⟩
  · rw [hrun]
  · rw [hrun, hmade, hcalls]
    rfl
  · simpa using hret
  · refine List.IsPrefix.trans ?_ hprefix
    exact ⟨[Event.ReporterStop r], by simp⟩

/-- Claim C2.  On every run in which both clients are created (`cs` from the
first positional argument, `ct` from the second): every Scanner construction
in the trace is on `cs`, every Pusher construction is on `ct` and is handed
the channel `ch` that `GetDumpChannel` returned for the scanner `s` made by
that construction, `s` is the only scanner asked for its channel and the only
scanner started; when the two clients differ the Scanner is never built on
`ct` nor the Pusher on `cs`.  When every call returns, these events occur, and
the Scanner is started after the Pusher was constructed. -/
theorem C2_scanner_channel_feeds_pusher (env : Env) (flags : Flags) (a0 a1 : String)
    (rest : List String) (cs ct : Client) (tr1 tr2 : List Event)
    (hs : createRedisClient env a0 flags.sourceTLS flags.sourceTLSInsecure
      [Event.Println "Start copying"] = (Except.ok (Except.ok cs), tr1))
    (hd : createRedisClient env a1 flags.destTLS flags.destTLSInsecure tr1 =
      (Except.ok (Except.ok ct), tr2)) :
    ∃ (o : RedisScannerOpts) (r : Reporter) (s : Scanner) (ch : Chan),
      s = env.NewScanner (tr2 ++ [Event.NewReporter]) cs o r ∧
      ch = env.GetDumpChannel (tr2 ++ [Event.NewReporter, Event.NewScanner cs o r]) s ∧
      (∀ c o1 r1, Event.NewScanner c o1 r1 ∈ (copyCmd.Run env flags (a0 :: a1 :: rest) []).2 →
        c = cs ∧ o1 = o ∧ r1 = r) ∧
      (∀ s1, Event.GetDumpChannel s1 ∈ (copyCmd.Run env flags (a0 :: a1 :: rest) []).2 →
        s1 = s) ∧
      (∀ c ch1 r1,
        Event.NewRedisPusher c ch1 r1 ∈ (copyCmd.Run env flags (a0 :: a1 :: rest) []).2 →
        c = ct ∧ ch1 = ch) ∧
      (∀ s1, Event.ScannerStart s1 ∈ (copyCmd.Run env flags (a0 :: a1 :: rest) []).2 →
        s1 = s) ∧
      (cs ≠ ct → ∀ o1 r1 ch1,
        Event.NewScanner ct o1 r1 ∉ (copyCmd.Run env flags (a0 :: a1 :: rest) []).2 ∧
        Event.NewRedisPusher cs ch1 r1 ∉ (copyCmd.Run env flags (a0 :: a1 :: rest) []).2) ∧
      ((∀ tr, env.returns tr = true) →
        ∃ pre mid post, (copyCmd.Run env flags (a0 :: a1 :: rest) []).2 =
          pre ++ [Event.NewScanner cs o r, Event.GetDumpChannel s,
            Event.NewRedisPusher ct ch r] ++ mid ++ [Event.ScannerStart s] ++ post) := by
  obtain ⟨o, r, s, ch, p, wg, body, -, -, hS, hch, -, -, hbody, hpre, -, hall⟩ :=
    Run_trace env flags a0 a1 rest cs ct tr1 tr2 hs hd
  have htr2 := clients_history env flags a0 a1 cs ct tr1 tr2 hs hd
  rw [htr2] at hpre
  have hmem := fun e he hm => pipeline_mem_body flags a0 a1 _ body e hpre he hm
  rw [hbody] at hmem
  have hsc : ∀ c o1 r1,
      Event.NewScanner c o1 r1 ∈ (copyCmd.Run env flags (a0 :: a1 :: rest) []).2 →
      c = cs ∧ o1 = o ∧ r1 = r := by
    intro c o1 r1 h
    simpa using hmem (Event.NewScanner c o1 r1) rfl h
  have hpu : ∀ c ch1 r1,
      Event.NewRedisPusher c ch1 r1 ∈ (copyCmd.Run env flags (a0 :: a1 :: rest) []).2 →
      c = ct ∧ ch1 = ch := by
    intro c ch1 r1 h
    have := hmem (Event.NewRedisPusher c ch1 r1) rfl h
    simp at this
    exact ⟨this.1, this.2.1⟩
  refine ⟨o, r, s, ch, hS, hch, hsc, ?_, hpu, ?_, ?_, ?_⟩
  · intro s1 h
    simpa using hmem (Event.GetDumpChannel s1) rfl h
  · intro s1 h
    simpa using hmem (Event.ScannerStart s1) rfl h
  · intro hne o1 r1 ch1
    exact ⟨fun h => hne (hsc _ _ _ h).1.symm, fun h => hne (hpu _ _ _ h).1⟩
  · intro hret
    rw [hall hret, hbody]
    exact ⟨tr2 ++ [Event.NewReporter],
      [Event.NewWaitGroup,
        Event.ReporterStart r (Duration.mul time.Second (time.toDuration flags.report)),
        Event.PusherStart p wg flags.pushRoutines],
      [Event.Wait wg, Event.ReporterStop r, Event.ReporterReport r,
        Event.Println "Finish copying"], by simp⟩

/-- Witness of `C2_scanner_channel_feeds_pusher`: with the default flags and
every call returning, the Pusher is constructed on the destination client and
the channel of the scanner. -/
theorem C2_scanner_channel_feeds_pusher_witness :
    Event.NewRedisPusher { handle := 2 } { handle := 5 } { handle := 3 } ∈
      (copyCmd.Run demoEnv init.vars ["src:6379", "dst:6379"] []).2 ∧
    Event.ScannerStart { handle := 4 } ∈
      (copyCmd.Run demoEnv init.vars ["src:6379", "dst:6379"] []).2 := by
  obtain ⟨o, r, s, ch, hS, hch, -, -, -, -, -, hall⟩ :=
    C2_scanner_channel_feeds_pusher demoEnv init.vars "src:6379" "dst:6379" []
      { handle := 1 } { handle := 2 } _ _ rfl rfl
  obtain ⟨pre, mid, post, hrun⟩ := hall (fun _ => rfl)
  have hr : ch = { handle := 5 } := by rw [hch]; rfl
  have hs : s = { handle := 4 } := by rw [hS]; rfl
  rw [hrun, ← hr, ← hs]
  refine ⟨?_, by simp⟩
  have : r = { handle := 3 } := by
    have h1 : Event.NewScanner { handle := 1 } o r ∈
        (copyCmd.Run demoEnv init.vars ["src:6379", "dst:6379"] []).2 := by
      rw [hrun]; simp
    have h2 : (copyCmd.Run demoEnv init.vars ["src:6379", "dst:6379"] []).2 =
        [Event.Println "Start copying", Event.DefaultClientFunc "tcp" "src:6379",
          Event.DefaultClientFunc "tcp" "dst:6379", Event.NewReporter,
          Event.NewScanner { handle := 1 }
            (RedisScannerOpts.mk "*" 100 30) { handle := 3 },
          Event.GetDumpChannel { handle := 4 },
          Event.NewRedisPusher { handle := 2 } { handle := 5 } { handle := 3 },
          Event.NewWaitGroup, Event.ReporterStart { handle := 3 } 1000000000,
          Event.PusherStart { handle := 6 } { handle := 7 } 30,
          Event.ScannerStart { handle := 4 }, Event.Wait { handle := 7 },
          Event.ReporterStop { handle := 3 }, Event.ReporterReport { handle := 3 },
          Event.Println "Finish copying"] := rfl
    rw [h2] at h1
    simp at h1
    exact h1.2
  rw [← this]
  simp

/-- The Reporter construction does not occur in the clients history. -/
theorem count_NewReporter_history (flags : Flags) (a0 a1 : String) (l : List Event) :
    ([Event.Println "Start copying",
      creationEvent a0 flags.sourceTLS flags.sourceTLSInsecure,
      creationEvent a1 flags.destTLS flags.destTLSInsecure] ++ l).count Event.NewReporter =
      l.count Event.NewReporter := by
  obtain ⟨-, f2, -, -, -, -⟩ := creationEvent_facts a0 flags.sourceTLS flags.sourceTLSInsecure
  obtain ⟨-, g2, -, -, -, -⟩ := creationEvent_facts a1 flags.destTLS flags.destTLSInsecure
  have h1 : creationEvent a0 flags.sourceTLS flags.sourceTLSInsecure ≠ Event.NewReporter := by
    intro h; rw [h] at f2; cases f2
  have h2 : creationEvent a1 flags.destTLS flags.destTLSInsecure ≠ Event.NewReporter := by
    intro h; rw [h] at g2; cases g2
  simp [List.count_cons, h1, h2]

/-- A creation event is not the construction of the Reporter. -/
theorem creationEvent_ne_NewReporter (addr : String) (useTLS insecureSkipVerify : Bool) :
    creationEvent addr useTLS insecureSkipVerify ≠ Event.NewReporter := by
  obtain ⟨-, f2, -, -, -, -⟩ := creationEvent_facts addr useTLS insecureSkipVerify
  intro h
  rw [h] at f2
  cases f2

/-- Once both clients exist the Reporter is constructed exactly once. -/
theorem count_NewReporter_run (env : Env) (flags : Flags) (a0 a1 : String)
    (rest : List String) (cs ct : Client) (tr1 tr2 : List Event)
    (hs : createRedisClient env a0 flags.sourceTLS flags.sourceTLSInsecure
      [Event.Println "Start copying"] = (Except.ok (Except.ok cs), tr1))
    (hd : createRedisClient env a1 flags.destTLS flags.destTLSInsecure tr1 =
      (Except.ok (Except.ok ct), tr2)) :
    (copyCmd.Run env flags (a0 :: a1 :: rest) []).2.count Event.NewReporter = 1 := by
  obtain ⟨o, r, s, ch, p, wg, body, -, -, -, -, -, -, hbody, hpre, hlow, -⟩ :=
    Run_trace env flags a0 a1 rest cs ct tr1 tr2 hs hd
  have htr2 := clients_history env flags a0 a1 cs ct tr1 tr2 hs hd
  rw [htr2] at hpre hlow
  have hle := hpre.sublist.count_le Event.NewReporter
  have hge := hlow.sublist.count_le Event.NewReporter
  rw [count_NewReporter_history] at hle hge
  rw [hbody] at hle
  simp [List.count_cons] at hle hge
  have hpos := List.count_pos_iff.2 hge
  omega

/-- Claim C4.  No run constructs more than one Reporter.  On every run in
which both clients are created, exactly one Reporter is constructed, and the
instance `r` returned by that construction is the reporter argument of every
Scanner construction, of every Pusher construction, and of every Start, Stop
and Report on a reporter in the trace; when every call returns, all five of
these uses of `r` occur. -/
theorem C4_single_reporter_instance (env : Env) (flags : Flags) (a0 a1 : String)
    (rest : List String) :
    (copyCmd.Run env flags (a0 :: a1 :: rest) []).2.count Event.NewReporter ≤ 1 ∧
    ∀ (cs ct : Client) (tr1 tr2 : List Event),
      createRedisClient env a0 flags.sourceTLS flags.sourceTLSInsecure
        [Event.Println "Start copying"] = (Except.ok (Except.ok cs), tr1) →
      createRedisClient env a1 flags.destTLS flags.destTLSInsecure tr1 =
        (Except.ok (Except.ok ct), tr2) →
      ∃ r : Reporter, r = env.NewReporter tr2 ∧
        (copyCmd.Run env flags (a0 :: a1 :: rest) []).2.count Event.NewReporter = 1 ∧
        (∀ c o r1,
          Event.NewScanner c o r1 ∈ (copyCmd.Run env flags (a0 :: a1 :: rest) []).2 →
          r1 = r) ∧
        (∀ c ch r1,
          Event.NewRedisPusher c ch r1 ∈ (copyCmd.Run env flags (a0 :: a1 :: rest) []).2 →
          r1 = r) ∧
        (∀ r1 d,
          Event.ReporterStart r1 d ∈ (copyCmd.Run env flags (a0 :: a1 :: rest) []).2 →
          r1 = r) ∧
        (∀ r1, Event.ReporterStop r1 ∈ (copyCmd.Run env flags (a0 :: a1 :: rest) []).2 →
          r1 = r) ∧
        (∀ r1, Event.ReporterReport r1 ∈ (copyCmd.Run env flags (a0 :: a1 :: rest) []).2 →
          r1 = r) ∧
        ((∀ tr, env.returns tr = true) → ∃ o ch d,
          Event.NewScanner cs o r ∈ (copyCmd.Run env flags (a0 :: a1 :: rest) []).2 ∧
          Event.NewRedisPusher ct ch r ∈ (copyCmd.Run env flags (a0 :: a1 :: rest) []).2 ∧
          Event.ReporterStart r d ∈ (copyCmd.Run env flags (a0 :: a1 :: rest) []).2 ∧
          Event.ReporterStop r ∈ (copyCmd.Run env flags (a0 :: a1 :: rest) []).2 ∧
          Event.ReporterReport r ∈ (copyCmd.Run env flags (a0 :: a1 :: rest) []).2) := by
  constructor
  · have n1 := creationEvent_ne_NewReporter a0 flags.sourceTLS flags.sourceTLSInsecure
    have n2 := creationEvent_ne_NewReporter a1 flags.destTLS flags.destTLSInsecure
    rcases Run_shape env flags a0 a1 rest with h | ⟨err, -, h⟩ | ⟨cs, tr1, hc, h⟩
    · rw [h]; simp [List.count_cons, n1]
    · rw [h]; simp [List.count_cons, n1]
    · rcases h with h | ⟨err, h⟩ | ⟨ct, tr2, hd⟩
      · rw [h]; simp [List.count_cons, n1, n2]
      · rw [h]; simp [List.count_cons, n1, n2]
      · exact le_of_eq (count_NewReporter_run env flags a0 a1 rest cs ct tr1 tr2 hc hd)
  intro cs ct tr1 tr2 hs hd
  obtain ⟨o, r, s, ch, p, wg, body, -, hr, -, -, -, -, hbody, hpre, hlow, hall⟩ :=
    Run_trace env flags a0 a1 rest cs ct tr1 tr2 hs hd
  have htr2 := clients_history env flags a0 a1 cs ct tr1 tr2 hs hd
  rw [htr2] at hpre hlow
  have hmem := fun e he hm => pipeline_mem_body flags a0 a1 _ body e hpre he hm
  rw [hbody] at hmem
  refine ⟨r, hr, count_NewReporter_run env flags a0 a1 rest cs ct tr1 tr2 hs hd,
    ?_, ?_, ?_, ?_, ?_, ?_⟩
  · intro c o1 r1 h
    have := hmem (Event.NewScanner c o1 r1) rfl h
    simp at this
    exact this.2.2
  · intro c ch1 r1 h
    have := hmem (Event.NewRedisPusher c ch1 r1) rfl h
    simp at this
    exact this.2.2
  · intro r1 d h
    have := hmem (Event.ReporterStart r1 d) rfl h
    simp at this
    exact this.1
  · intro r1 h
    simpa using hmem (Event.ReporterStop r1) rfl h
  · intro r1 h
    simpa using hmem (Event.ReporterReport r1) rfl h
  · intro hret
    rw [hall hret, hbody]
    exact ⟨o, ch, Duration.mul time.Second (time.toDuration flags.report), by simp, by simp,
      by simp, by simp, by simp⟩

/-- Witness of `C4_single_reporter_instance`: the one reporter of the default
run is the object made by the fourth call. -/
theorem C4_single_reporter_instance_witness :
    (copyCmd.Run demoEnv init.vars ["src:6379", "dst:6379"] []).2.count Event.NewReporter = 1 ∧
      Event.ReporterReport { handle := 3 } ∈
        (copyCmd.Run demoEnv init.vars ["src:6379", "dst:6379"] []).2 := by
  obtain ⟨r, hr, hcount, -, -, -, -, -, hall⟩ :=
    (C4_single_reporter_instance demoEnv init.vars "src:6379" "dst:6379" []).2
      { handle := 1 } { handle := 2 } _ _ rfl rfl
  obtain ⟨o, ch, d, -, -, -, -, hrep⟩ := hall (fun _ => rfl)
  have h3 : r = { handle := 3 } := by rw [hr]; rfl
  rw [h3] at hrep
  exact ⟨hcount, hrep⟩

/-- Claim C5.  For every value of the flags, on a run in which both clients
are created: every Scanner construction in the trace carries Pattern equal to
`pattern`, ScanCount equal to `scanCount` and PullRoutineCount equal to
`exportRoutines`, and every start of the Pusher carries the worker count
`pushRoutines`; when every call returns both events occur. -/
theorem C5_flags_passed_through (env : Env) (flags : Flags) (a0 a1 : String)
    (rest : List String) (cs ct : Client) (tr1 tr2 : List Event)
    (hs : createRedisClient env a0 flags.sourceTLS flags.sourceTLSInsecure
      [Event.Println "Start copying"] = (Except.ok (Except.ok cs), tr1))
    (hd : createRedisClient env a1 flags.destTLS flags.destTLSInsecure tr1 =
      (Except.ok (Except.ok ct), tr2)) :
    (∀ c o r, Event.NewScanner c o r ∈ (copyCmd.Run env flags (a0 :: a1 :: rest) []).2 →
      o.Pattern = flags.pattern ∧ o.ScanCount = flags.scanCount ∧
        o.PullRoutineCount = flags.exportRoutines) ∧
    (∀ p wg n, Event.PusherStart p wg n ∈ (copyCmd.Run env flags (a0 :: a1 :: rest) []).2 →
      n = flags.pushRoutines) ∧
    ((∀ tr, env.returns tr = true) → ∃ r p wg,
      Event.NewScanner cs
        (RedisScannerOpts.mk flags.pattern flags.scanCount flags.exportRoutines) r ∈
        (copyCmd.Run env flags (a0 :: a1 :: rest) []).2 ∧
      Event.PusherStart p wg flags.pushRoutines ∈
        (copyCmd.Run env flags (a0 :: a1 :: rest) []).2) := by
  obtain ⟨o, r, s, ch, p, wg, body, ho, -, -, -, -, -, hbody, hpre, -, hall⟩ :=
    Run_trace env flags a0 a1 rest cs ct tr1 tr2 hs hd
  have htr2 := clients_history env flags a0 a1 cs ct tr1 tr2 hs hd
  rw [htr2] at hpre
  have hmem := fun e he hm => pipeline_mem_body flags a0 a1 _ body e hpre he hm
  rw [hbody] at hmem
  refine ⟨?_, ?_, ?_⟩
  · intro c o1 r1 h
    have := hmem (Event.NewScanner c o1 r1) rfl h
    simp at this
    rw [this.2.1, ho]
    exact ⟨rfl, rfl, rfl⟩
  · intro p1 wg1 n h
    have := hmem (Event.PusherStart p1 wg1 n) rfl h
    simp at this
    exact this.2.2
  · intro hret
    rw [hall hret, hbody, ← ho]
    exact ⟨r, p, wg, by simp, by simp⟩

/-- Witness of `C5_flags_passed_through`: with 7 export routines and 3 push
routines the Scanner gets 7 and the Pusher 3. -/
theorem C5_flags_passed_through_witness :
    ∃ r p wg,
      Event.NewScanner { handle := 1 } (RedisScannerOpts.mk "*" 100 7) r ∈
        (copyCmd.Run demoEnv skewFlags ["src:6379", "dst:6379"] []).2 ∧
      Event.PusherStart p wg 3 ∈
        (copyCmd.Run demoEnv skewFlags ["src:6379", "dst:6379"] []).2 := by
  have h := C5_flags_passed_through demoEnv skewFlags "src:6379" "dst:6379" []
    { handle := 1 } { handle := 2 } _ _ rfl rfl
  exact h.2.2 (fun _ => rfl)

/-- The client creations of a run: the source creation, followed by the
destination creation exactly when the source client was created. -/
theorem Run_creations (env : Env) (flags : Flags) (a0 a1 : String) (rest : List String) :
    (clientCreations (copyCmd.Run env flags (a0 :: a1 :: rest) []).2 =
        [creationEvent a0 flags.sourceTLS flags.sourceTLSInsecure] ∧
      ¬ ∃ cs tr1, createRedisClient env a0 flags.sourceTLS flags.sourceTLSInsecure
        [Event.Println "Start copying"] = (Except.ok (Except.ok cs), tr1)) ∨
    (clientCreations (copyCmd.Run env flags (a0 :: a1 :: rest) []).2 =
        [creationEvent a0 flags.sourceTLS flags.sourceTLSInsecure,
          creationEvent a1 flags.destTLS flags.destTLSInsecure] ∧
      ∃ cs tr1, createRedisClient env a0 flags.sourceTLS flags.sourceTLSInsecure
        [Event.Println "Start copying"] = (Except.ok (Except.ok cs), tr1)) := by
  obtain ⟨f1, f2, -, -, -, -⟩ := creationEvent_facts a0 flags.sourceTLS flags.sourceTLSInsecure
  obtain ⟨g1, g2, -, -, -, -⟩ := creationEvent_facts a1 flags.destTLS flags.destTLSInsecure
  rcases Run_shape env flags a0 a1 rest with h | ⟨err, hc, h⟩ | ⟨cs, tr1, hc, h⟩
  · left
    refine ⟨by rw [h]; simp [clientCreations, List.filter_cons, isClientCreation_Println, f1],
      ?_⟩
    rintro ⟨cs, tr1, hc⟩
    rcases createRedisClient_cases env a1 flags.destTLS flags.destTLSInsecure tr1
      with h2 | ⟨err, h2⟩ | ⟨ct, h2⟩
    · have h3 := Run_dest_noReturn env flags a0 a1 rest cs _ _ hc h2
      rw [h] at h3
      simp at h3
      have := congrArg List.length h3
      have ht := createRedisClient_trace env a0 flags.sourceTLS flags.sourceTLSInsecure
        [Event.Println "Start copying"]
      rw [hc] at ht
      simp only at ht
      rw [ht] at this
      simp at this
    · have h3 := Run_dest_error env flags a0 a1 rest cs err _ _ hc h2
      rw [h] at h3
      simp at h3
    · obtain ⟨o, r, s, ch, p, wg, body, -, -, -, -, -, -, -, -, hlow, -⟩ :=
        Run_trace env flags a0 a1 rest cs ct _ _ hc h2
      rw [h] at hlow
      have hl := hlow.length_le
      have ht := createRedisClient_trace env a0 flags.sourceTLS flags.sourceTLSInsecure
        [Event.Println "Start copying"]
      rw [hc] at ht
      simp only at ht
      rw [ht] at hl
      simp at hl
  · left
    refine ⟨by rw [h]; simp [clientCreations, List.filter_cons, isClientCreation_Println,
      isClientCreation_Fatal, f1], ?_⟩
    rintro ⟨cs, tr1, hc2⟩
    rw [hc] at hc2
    simp at hc2
  · right
    refine ⟨?_, cs, tr1, hc⟩
    rcases h with h | ⟨err, h⟩ | ⟨ct, tr2, hd⟩
    · rw [h]
      simp [clientCreations, List.filter_cons, isClientCreation_Println, f1, g1]
    · rw [h]
      simp [clientCreations, List.filter_cons, isClientCreation_Println,
        isClientCreation_Fatal, f1, g1]
    · obtain ⟨o, r, s, ch, p, wg, body, -, -, -, -, -, -, hbody, hpre, hlow, -⟩ :=
        Run_trace env flags a0 a1 rest cs ct tr1 tr2 hc hd
      have htr2 := clients_history env flags a0 a1 cs ct tr1 tr2 hc hd
      rw [htr2, hbody] at hpre
      rw [htr2] at hlow
      have h1 := hpre.filter Event.isClientCreation
      have h2 := hlow.filter Event.isClientCreation
      simp only [List.cons_append, List.nil_append, List.filter_cons, isClientCreation_Println,
        f1, g1, if_true] at h1 h2
      simp [Event.isClientCreation] at h1 h2
      exact h1.eq_of_length (le_antisymm h1.length_le h2.length_le)

/-- Once both clients exist the run ends normally or at a call that does not
return. -/
theorem Run_outcome (env : Env) (flags : Flags) (a0 a1 : String) (rest : List String)
    (cs ct : Client) (tr1 tr2 : List Event)
    (hs : createRedisClient env a0 flags.sourceTLS flags.sourceTLSInsecure
      [Event.Println "Start copying"] = (Except.ok (Except.ok cs), tr1))
    (hd : createRedisClient env a1 flags.destTLS flags.destTLSInsecure tr1 =
      (Except.ok (Except.ok ct), tr2)) :
    (copyCmd.Run env flags (a0 :: a1 :: rest) []).1 = Except.ok () ∨
      (copyCmd.Run env flags (a0 :: a1 :: rest) []).1 = Except.error Abort.noReturn := by
  unfold copyCmd.Run
  simp only [bind, M.bind, fmt.Println, index, List.get?, List.nil_append, hs, hd, orFatal,
    M.pure, callOut, newWaitGroup]
  iterate 11 (all_goals (try (split_ifs <;> try dsimp only)))
  all_goals simp

/-- A run on at least two arguments never panics. -/
theorem Run_no_panic (env : Env) (flags : Flags) (a0 a1 : String) (rest : List String)
    (msg : String) :
    (copyCmd.Run env flags (a0 :: a1 :: rest) []).1 ≠ Except.error (Abort.panic msg) := by
  rcases Run_shape env flags a0 a1 rest with h | ⟨err, -, h⟩ | ⟨cs, tr1, hc, h⟩
  · rw [h]; simp
  · rw [h]; simp
  · rcases h with h | ⟨err, h⟩ | ⟨ct, tr2, hd⟩
    · rw [h]; simp
    · rw [h]; simp
    · rcases Run_outcome env flags a0 a1 rest cs ct tr1 tr2 hc hd with h | h <;>
        rw [h] <;> simp

/-- Claim C10.  The command accepts an argument list exactly when it has at
least two positional arguments; for every accepted list the reads of
`args[0]` and `args[1]` succeed, the run never panics, and the run is the same
as the run on the first two arguments alone. -/
theorem C10_minimum_two_args (env : Env) (flags : Flags) (args : List String) :
    (copyCmd.Args args = none ↔ 2 ≤ args.length) ∧
    ((∃ out, copyCmd.execute env flags args = Except.ok out) ↔ 2 ≤ args.length) ∧
    (copyCmd.Args args = none →
      (∃ a0 a1, (∀ tr, index args 0 tr = (Except.ok a0, tr)) ∧
        (∀ tr, index args 1 tr = (Except.ok a1, tr))) ∧
      (∀ msg, (copyCmd.Run env flags args []).1 ≠ Except.error (Abort.panic msg)) ∧
      copyCmd.execute env flags args = Except.ok (copyCmd.Run env flags args []) ∧
      copyCmd.Run env flags args = copyCmd.Run env flags (args.take 2)) := by
  have hArgs : copyCmd.Args args = none ↔ 2 ≤ args.length := by
    unfold copyCmd.Args cobra.MinimumNArgs
    split_ifs with h
    · simp; omega
    · simp; omega
  refine ⟨hArgs, ?_, ?_⟩
  · unfold copyCmd.execute
    cases h : copyCmd.Args args with
    | none => exact ⟨fun _ => hArgs.1 h, fun _ => ⟨_, rfl⟩⟩
    | some err =>
      refine ⟨fun hex => ?_, fun hlen => ?_⟩
      · obtain ⟨out, hout⟩ := hex
        cases hout
      · have := hArgs.2 hlen
        rw [h] at this
        cases this
  · intro hacc
    have hlen := hArgs.1 hacc
    match args, hlen with
    | a0 :: a1 :: rest, _ =>
      refine ⟨⟨a0, a1, fun _ => rfl, fun _ => rfl⟩, fun msg => Run_no_panic env flags a0 a1 rest msg,
        ?_, rfl⟩
      unfold copyCmd.execute
      rw [hacc]

/-- Witness of `C10_minimum_two_args`: three positional arguments are
accepted and the third plays no part. -/
theorem C10_minimum_two_args_witness :
    copyCmd.Args ["src:6379", "dst:6379", "extra"] = none ∧
      copyCmd.Run demoEnv init.vars ["src:6379", "dst:6379", "extra"] =
        copyCmd.Run demoEnv init.vars ["src:6379", "dst:6379"] :=
  ⟨rfl, ((C10_minimum_two_args demoEnv init.vars ["src:6379", "dst:6379", "extra"]).2.2 rfl).2.2.2⟩

/-- Every pipeline event of a run on at least two arguments is one of the
twelve events of the command body, with the values of the flags. -/
theorem Run_pipeline_any (env : Env) (flags : Flags) (a0 a1 : String) (rest : List String)
    (e : Event) (he : e.isPipeline = true)
    (hm : e ∈ (copyCmd.Run env flags (a0 :: a1 :: rest) []).2) :
    ∃ (cs ct : Client) (r : Reporter) (s : Scanner) (ch : Chan) (p : Pusher) (wg : WaitGroup),
      e ∈ [Event.NewReporter,
        Event.NewScanner cs
          (RedisScannerOpts.mk flags.pattern flags.scanCount flags.exportRoutines) r,
        Event.GetDumpChannel s, Event.NewRedisPusher ct ch r, Event.NewWaitGroup,
        Event.ReporterStart r (Duration.mul time.Second (time.toDuration flags.report)),
        Event.PusherStart p wg flags.pushRoutines, Event.ScannerStart s, Event.Wait wg,
        Event.ReporterStop r, Event.ReporterReport r, Event.Println "Finish copying"] := by
  obtain ⟨-, f2, -, -, -, -⟩ := creationEvent_facts a0 flags.sourceTLS flags.sourceTLSInsecure
  obtain ⟨-, g2, -, -, -, -⟩ := creationEvent_facts a1 flags.destTLS flags.destTLSInsecure
  have hbad : ∀ l : List Event, (∀ x ∈ l, x.isPipeline = false) → e ∈ l → False := by
    intro l hl hel
    rw [hl e hel] at he
    cases he
  rcases Run_shape env flags a0 a1 rest with h | ⟨err, -, h⟩ | ⟨cs, tr1, hc, h⟩
  · rw [h] at hm
    exact (hbad _ (by simp [isPipeline_Println, f2]) hm).elim
  · rw [h] at hm
    exact (hbad _ (by simp [isPipeline_Println, isPipeline_Fatal, f2]) hm).elim
  · rcases h with h | ⟨err, h⟩ | ⟨ct, tr2, hd⟩
    · rw [h] at hm
      exact (hbad _ (by simp [isPipeline_Println, f2, g2]) hm).elim
    · rw [h] at hm
      exact (hbad _ (by simp [isPipeline_Println, isPipeline_Fatal, f2, g2]) hm).elim
    · obtain ⟨o, r, s, ch, p, wg, body, ho, -, -, -, -, -, hbody, hpre, -, -⟩ :=
        Run_trace env flags a0 a1 rest cs ct tr1 tr2 hc hd
      have htr2 := clients_history env flags a0 a1 cs ct tr1 tr2 hc hd
      rw [htr2] at hpre
      have := pipeline_mem_body flags a0 a1 _ body e hpre he hm
      rw [hbody, ho] at this
      exact ⟨cs, ct, r, s, ch, p, wg, this⟩

/-- An event that is not a client creation dials nothing. -/
theorem not_creation_no_tls (e : Event) (h : e.isClientCreation = false) :
    e.usesTLS = false ∧ e.skipsVerify = false := by
  cases e <;> first
    | exact ⟨rfl, rfl⟩
    | cases h

/-- On 64-bit values the reduction is the identity. -/
theorem wrapInt64_of_inInt64 (x : Int) (h : inInt64 x) : wrapInt64 x = x := by
  unfold inInt64 at h
  unfold wrapInt64
  norm_num at h ⊢
  omega

/-- The interval computed for `--report`. -/
theorem report_interval (n : Int) (h : inInt64 n) :
    Duration.mul time.Second (time.toDuration n) = wrapInt64 (n * 1000000000) := by
  unfold Duration.mul time.toDuration time.Second
  rw [wrapInt64_of_inInt64 n h, mul_comm]

/-- The interval is `n` seconds exactly on the range where the product fits. -/
theorem report_interval_exact_iff (n : Int) :
    wrapInt64 (n * 1000000000) = n * 1000000000 ↔ -9223372036 ≤ n ∧ n ≤ 9223372036 := by
  unfold wrapInt64
  norm_num
  omega

/-- Claim C6.  With no flag given the variables keep the defaults registered
by `init`: pattern `*`, scan count 100, report 1, 30 export routines, 30 push
routines, and the four TLS switches off.  In every run with these values the
clients are asked for as plain default clients of the two addresses, no
creation uses TLS or skips verification, every Scanner construction carries
`*`, 100 and 30, every Reporter start carries one second, and every Pusher
start carries 30; the run in which every call returns shows all of them. -/
theorem C6_default_configuration :
    init.parse [] = some init ∧
    init.vars = Flags.mk "*" 100 1 30 30 false false false false ∧
    (∀ (env : Env) (a0 a1 : String) (rest : List String),
      (clientCreations (copyCmd.Run env init.vars (a0 :: a1 :: rest) []).2 =
          [Event.DefaultClientFunc "tcp" a0] ∨
        clientCreations (copyCmd.Run env init.vars (a0 :: a1 :: rest) []).2 =
          [Event.DefaultClientFunc "tcp" a0, Event.DefaultClientFunc "tcp" a1]) ∧
      (∀ e ∈ (copyCmd.Run env init.vars (a0 :: a1 :: rest) []).2,
        e.usesTLS = false ∧ e.skipsVerify = false) ∧
      (∀ c o r, Event.NewScanner c o r ∈ (copyCmd.Run env init.vars (a0 :: a1 :: rest) []).2 →
        o = RedisScannerOpts.mk "*" 100 30) ∧
      (∀ r d, Event.ReporterStart r d ∈ (copyCmd.Run env init.vars (a0 :: a1 :: rest) []).2 →
        d = time.Second ∧ d = 1000000000) ∧
      (∀ p wg n, Event.PusherStart p wg n ∈
        (copyCmd.Run env init.vars (a0 :: a1 :: rest) []).2 → n = 30)) ∧
    copyCmd.Run demoEnv init.vars ["src:6379", "dst:6379"] [] =
      (Except.ok (),
        [Event.Println "Start copying", Event.DefaultClientFunc "tcp" "src:6379",
          Event.DefaultClientFunc "tcp" "dst:6379", Event.NewReporter,
          Event.NewScanner { handle := 1 }
            (RedisScannerOpts.mk "*" 100 30) { handle := 3 },
          Event.GetDumpChannel { handle := 4 },
          Event.NewRedisPusher { handle := 2 } { handle := 5 } { handle := 3 },
          Event.NewWaitGroup, Event.ReporterStart { handle := 3 } 1000000000,
          Event.PusherStart { handle := 6 } { handle := 7 } 30,
          Event.ScannerStart { handle := 4 }, Event.Wait { handle := 7 },
          Event.ReporterStop { handle := 3 }, Event.ReporterReport { handle := 3 },
          Event.Println "Finish copying"]) := by
  refine ⟨rfl, rfl, ?_, demoRun_trace⟩
  intro env a0 a1 rest
  have hcr : clientCreations (copyCmd.Run env init.vars (a0 :: a1 :: rest) []).2 =
        [Event.DefaultClientFunc "tcp" a0] ∨
      clientCreations (copyCmd.Run env init.vars (a0 :: a1 :: rest) []).2 =
        [Event.DefaultClientFunc "tcp" a0, Event.DefaultClientFunc "tcp" a1] := by
    rcases Run_creations env init.vars a0 a1 rest with ⟨h, -⟩ | ⟨h, -⟩
    · exact Or.inl h
    · exact Or.inr h
  have hval : Duration.mul time.Second (time.toDuration init.vars.report) = 1000000000 := by
    decide
  refine ⟨hcr, ?_, ?_, ?_, ?_⟩
  · intro e he
    cases hc : e.isClientCreation with
    | false => exact not_creation_no_tls e hc
    | true =>
      have hmem : e ∈ clientCreations (copyCmd.Run env init.vars (a0 :: a1 :: rest) []).2 :=
        List.mem_filter.2 ⟨he, hc⟩
      rcases hcr with h | h <;> rw [h] at hmem <;> simp at hmem
      · rw [hmem]; exact ⟨rfl, rfl⟩
      · rcases hmem with h1 | h1 <;> rw [h1] <;> exact ⟨rfl, rfl⟩
  · intro c o r h
    obtain ⟨cs, ct, r1, s, ch, p, wg, hm⟩ :=
      Run_pipeline_any env init.vars a0 a1 rest (Event.NewScanner c o r) rfl h
    simp at hm
    rw [hm.2.1]
    rfl
  · intro r d h
    obtain ⟨cs, ct, r1, s, ch, p, wg, hm⟩ :=
      Run_pipeline_any env init.vars a0 a1 rest (Event.ReporterStart r d) rfl h
    simp at hm
    rw [hm.2, hval]
    exact ⟨rfl, rfl⟩
  · intro p wg n h
    obtain ⟨cs, ct, r1, s, ch, p1, wg1, hm⟩ :=
      Run_pipeline_any env init.vars a0 a1 rest (Event.PusherStart p wg n) rfl h
    simp at hm
    rw [hm.2.2]
    rfl

/-- Witness of `C6_default_configuration`: the Reporter of the default run
is started with one second. -/
theorem C6_default_configuration_witness :
    Event.ReporterStart { handle := 3 } 1000000000 ∈
        (copyCmd.Run demoEnv init.vars ["src:6379", "dst:6379"] []).2 ∧
      (1000000000 : Duration) = time.Second := by
  have hmem : Event.ReporterStart { handle := 3 } 1000000000 ∈
      (copyCmd.Run demoEnv init.vars ["src:6379", "dst:6379"] []).2 := by
    rw [C6_default_configuration.2.2.2]
    simp
  exact ⟨hmem,
    ((C6_default_configuration.2.2.1 demoEnv "src:6379" "dst:6379" []).2.2.2.1 _ _ hmem).1⟩

/-- Counterexample to claim C7 as stated: with `--report 9223372037`, a value
of a 64-bit `int`, the Reporter is started with a negative interval, not with
9223372037 seconds. -/
theorem C7_counterexample :
    inInt64 9223372037 ∧
      Event.ReporterStart { handle := 3 } (-9223372036709551616) ∈
        (copyCmd.Run demoEnv (reportFlags 9223372037) ["src:6379", "dst:6379"] []).2 ∧
      (-9223372036709551616 : Int) ≠ 9223372037 * 1000000000 := by
  refine ⟨by decide, ?_, by decide⟩
  have h : (copyCmd.Run demoEnv (reportFlags 9223372037) ["src:6379", "dst:6379"] []).2 =
      [Event.Println "Start copying", Event.DefaultClientFunc "tcp" "src:6379",
        Event.DefaultClientFunc "tcp" "dst:6379", Event.NewReporter,
        Event.NewScanner { handle := 1 }
          (RedisScannerOpts.mk "*" 100 30) { handle := 3 },
        Event.GetDumpChannel { handle := 4 },
        Event.NewRedisPusher { handle := 2 } { handle := 5 } { handle := 3 },
        Event.NewWaitGroup, Event.ReporterStart { handle := 3 } (-9223372036709551616),
        Event.PusherStart { handle := 6 } { handle := 7 } 30,
        Event.ScannerStart { handle := 4 }, Event.Wait { handle := 7 },
        Event.ReporterStop { handle := 3 }, Event.ReporterReport { handle := 3 },
        Event.Println "Finish copying"] := rfl
  rw [h]
  simp

/-- Claim C7, amended.  For every `--report` value `n` of a 64-bit `int`, on a
run in which both clients are created, every start of the Reporter carries
the interval `n` times 1,000,000,000 nanoseconds reduced to the 64-bit signed
range; that interval is exactly `n` seconds if and only if `n` lies between
-9223372036 and 9223372036; when every call returns the Reporter is started
with it. -/
theorem C7_report_interval_wraps (env : Env) (flags : Flags) (a0 a1 : String)
    (rest : List String) (cs ct : Client) (tr1 tr2 : List Event)
    (hs : createRedisClient env a0 flags.sourceTLS flags.sourceTLSInsecure
      [Event.Println "Start copying"] = (Except.ok (Except.ok cs), tr1))
    (hd : createRedisClient env a1 flags.destTLS flags.destTLSInsecure tr1 =
      (Except.ok (Except.ok ct), tr2))
    (hn : inInt64 flags.report) :
    (∀ r d, Event.ReporterStart r d ∈ (copyCmd.Run env flags (a0 :: a1 :: rest) []).2 →
      d = wrapInt64 (flags.report * 1000000000)) ∧
    (wrapInt64 (flags.report * 1000000000) = flags.report * 1000000000 ↔
      -9223372036 ≤ flags.report ∧ flags.report ≤ 9223372036) ∧
    ((∀ tr, env.returns tr = true) → ∃ r,
      Event.ReporterStart r (wrapInt64 (flags.report * 1000000000)) ∈
        (copyCmd.Run env flags (a0 :: a1 :: rest) []).2) := by
  refine ⟨?_, report_interval_exact_iff flags.report, ?_⟩
  · intro r d h
    obtain ⟨cs1, ct1, r1, s, ch, p, wg, hm⟩ :=
      Run_pipeline_any env flags a0 a1 rest (Event.ReporterStart r d) rfl h
    simp at hm
    rw [hm.2, report_interval flags.report hn]
  · intro hret
    obtain ⟨o, r, s, ch, p, wg, body, -, -, -, -, -, -, hbody, -, -, hall⟩ :=
      Run_trace env flags a0 a1 rest cs ct tr1 tr2 hs hd
    rw [hall hret, hbody, report_interval flags.report hn]
    exact ⟨r, by simp⟩

/-- Witness of `C7_report_interval_wraps`: `--report 5` starts the Reporter
with five seconds. -/
theorem C7_report_interval_wraps_witness :
    inInt64 5 ∧ ∃ r, Event.ReporterStart r 5000000000 ∈
      (copyCmd.Run demoEnv (reportFlags 5) ["src:6379", "dst:6379"] []).2 := by
  have h := C7_report_interval_wraps demoEnv (reportFlags 5) "src:6379" "dst:6379" []
    { handle := 1 } { handle := 2 } _ _ rfl rfl (by decide)
  exact ⟨by decide, h.2.2 (fun _ => rfl)⟩

/-- Claim C8.  For each side the creation asks for TLS exactly when that
side's TLS flag is set, and skips certificate verification exactly when both
its TLS flag and its insecure flag are set; each creation is dialled at its
own address.  With TLS off `createRedisClient` is the default plain client of
the address whatever the insecure flag.  A run makes the source creation
first and the destination creation second (the latter exactly when the source
client was created); the source creation is the same in every run with the
same source flags and the destination creation, when made, is the same in
every run with the same destination flags. -/
theorem C8_tls_flags_per_side (env : Env) (flags : Flags) (a0 a1 : String)
    (rest : List String) :
    ∃ es ed : Event,
      (∀ tr, (createRedisClient env a0 flags.sourceTLS flags.sourceTLSInsecure tr).2 =
        tr ++ [es]) ∧
      (∀ tr, (createRedisClient env a1 flags.destTLS flags.destTLSInsecure tr).2 =
        tr ++ [ed]) ∧
      (clientCreations (copyCmd.Run env flags (a0 :: a1 :: rest) []).2 = [es] ∨
        clientCreations (copyCmd.Run env flags (a0 :: a1 :: rest) []).2 = [es, ed]) ∧
      ((∃ cs tr1, createRedisClient env a0 flags.sourceTLS flags.sourceTLSInsecure
          [Event.Println "Start copying"] = (Except.ok (Except.ok cs), tr1)) →
        clientCreations (copyCmd.Run env flags (a0 :: a1 :: rest) []).2 = [es, ed]) ∧
      es.dialAddr? = some a0 ∧ ed.dialAddr? = some a1 ∧
      (es.usesTLS = true ↔ flags.sourceTLS = true) ∧
      (es.skipsVerify = true ↔ flags.sourceTLS = true ∧ flags.sourceTLSInsecure = true) ∧
      (ed.usesTLS = true ↔ flags.destTLS = true) ∧
      (ed.skipsVerify = true ↔ flags.destTLS = true ∧ flags.destTLSInsecure = true) ∧
      (∀ addr i j, createRedisClient env addr false i = createRedisClient env addr false j ∧
        createRedisClient env addr false i = radix.DefaultClientFunc env "tcp" addr) ∧
      (∀ (env2 : Env) (g : Flags) (rest2 : List String),
        g.sourceTLS = flags.sourceTLS → g.sourceTLSInsecure = flags.sourceTLSInsecure →
        (clientCreations (copyCmd.Run env2 g (a0 :: a1 :: rest2) []).2).get? 0 = some es) ∧
      (∀ (env2 : Env) (g : Flags) (rest2 : List String) (e : Event),
        g.destTLS = flags.destTLS → g.destTLSInsecure = flags.destTLSInsecure →
        (clientCreations (copyCmd.Run env2 g (a0 :: a1 :: rest2) []).2).get? 1 = some e →
        e = ed) := by
  obtain ⟨-, -, f3, f4, f5, -⟩ := creationEvent_facts a0 flags.sourceTLS flags.sourceTLSInsecure
  obtain ⟨-, -, g3, g4, g5, -⟩ := creationEvent_facts a1 flags.destTLS flags.destTLSInsecure
  refine ⟨creationEvent a0 flags.sourceTLS flags.sourceTLSInsecure,
    creationEvent a1 flags.destTLS flags.destTLSInsecure,
    fun tr => createRedisClient_trace env a0 _ _ tr,
    fun tr => createRedisClient_trace env a1 _ _ tr, ?_, ?_, f3, g3, ?_, ?_, ?_, ?_, ?_, ?_, ?_⟩
  · rcases Run_creations env flags a0 a1 rest with ⟨h, -⟩ | ⟨h, -⟩
    · exact Or.inl h
    · exact Or.inr h
  · intro hex
    rcases Run_creations env flags a0 a1 rest with ⟨-, h⟩ | ⟨h, -⟩
    · exact (h hex).elim
    · exact h
  · rw [f4]
  · rw [f5]; simp
  · rw [g4]
  · rw [g5]; simp
  · intro addr i j
    exact ⟨rfl, rfl⟩
  · intro env2 g rest2 h1 h2
    rw [← h1, ← h2]
    rcases Run_creations env2 g a0 a1 rest2 with ⟨h, -⟩ | ⟨h, -⟩ <;> rw [h] <;> rfl
  · intro env2 g rest2 e h1 h2 he
    rw [← h1, ← h2]
    rcases Run_creations env2 g a0 a1 rest2 with ⟨h, -⟩ | ⟨h, -⟩ <;> rw [h] at he
    · cases he
    · simpa using he.symm

/-- Witness of `C8_tls_flags_per_side`: turning on TLS and skipped
verification for the source leaves the destination creation a plain default
client, while the source creation uses TLS and skips verification. -/
theorem C8_tls_flags_per_side_witness :
    (clientCreations
        (copyCmd.Run demoEnv tlsSourceFlags ["src:6379", "dst:6379"] []).2).get? 1 =
        some (Event.DefaultClientFunc "tcp" "dst:6379") ∧
      (Event.DefaultClientFunc "tcp" "dst:6379").usesTLS = false ∧
      ∃ es, (clientCreations
        (copyCmd.Run demoEnv tlsSourceFlags ["src:6379", "dst:6379"] []).2).get? 0 = some es ∧
        es.usesTLS = true ∧ es.skipsVerify = true := by
  obtain ⟨ed1, ed, -, hd, -, -, -, -, -, -, hu, -, -, -, hdst⟩ :=
    C8_tls_flags_per_side demoEnv init.vars "src:6379" "dst:6379" []
  obtain ⟨es, es2, -, -, -, -, -, -, hst, hsv, -, -, -, hsrc, -⟩ :=
    C8_tls_flags_per_side demoEnv tlsSourceFlags "src:6379" "dst:6379" []
  have hed : ed = Event.DefaultClientFunc "tcp" "dst:6379" := by
    have h0 : [Event.DefaultClientFunc "tcp" "dst:6379"] = [] ++ [ed] := hd []
    simpa using h0.symm
  have hget : (clientCreations
      (copyCmd.Run demoEnv tlsSourceFlags ["src:6379", "dst:6379"] []).2).get? 1 =
      some (Event.DefaultClientFunc "tcp" "dst:6379") := rfl
  have := hdst demoEnv tlsSourceFlags [] _ rfl rfl hget
  refine ⟨hget, ?_, es, hsrc demoEnv tlsSourceFlags [] rfl rfl, hst.2 rfl, hsv.2 ⟨rfl, rfl⟩⟩
  rw [this, hed]
  rfl

/-- The invariant holds initially. -/
theorem Inv_initial (cfg : Config) : Inv cfg (Pipeline.initial cfg) := by
  simp [Inv, Pipeline.initial, Pos.rank]

/-- The orchestrator preserves the invariant. -/
theorem Inv_stepOrchestrator (cfg : Config) (s t : Pipeline) (hinv : Inv cfg s)
    (h : stepOrchestrator cfg s = some t) : Inv cfg t := by
  obtain ⟨i1, i2, i3, i4, i5, i6, i7, i8, i9⟩ := hinv
  unfold stepOrchestrator at h
  cases hpos : s.pos <;> rw [hpos] at h <;> simp only [hpos, Pos.rank] at i2 i3 i6 i7 <;>
    simp only at h
  case scannerStarted =>
    split_ifs at h with hw
    cases h
    refine ⟨i1, ?_, ?_, i4, i5, ?_, ?_, i8, i9⟩ <;> simp only [Pos.rank] <;> intros <;>
      first | omega | (apply i3; omega)
  case finished => cases h
  all_goals (cases h)
  all_goals (simp only [Inv, Pos.rank])
  all_goals (norm_num at i2 i3 i6 i7 ⊢)
  all_goals (try (refine ⟨?_, ?_⟩))
  all_goals (try (refine ⟨?_, ?_⟩))
  all_goals (try (refine ⟨?_, ?_⟩))
  all_goals (try (refine ⟨?_, ?_⟩))
  all_goals (try (refine ⟨?_, ?_⟩))
  all_goals (try (refine ⟨?_, ?_⟩))
  all_goals (try (refine ⟨?_, ?_⟩))
  all_goals (try (refine ⟨?_, ?_⟩))
  all_goals (try intros)
  all_goals (first | assumption | omega | (simp_all; done) | (simp_all; omega))

/-- The scanner and the pusher preserve the invariant. -/
theorem Inv_stepWorker (cfg : Config) (s t : Pipeline) (a : Action) (hinv : Inv cfg s)
    (h : stepWorker cfg s a = some t) : Inv cfg t := by
  obtain ⟨i1, i2, i3, i4, i5, i6, i7, i8, i9⟩ := hinv
  cases a <;> simp only [stepWorker] at h
  case orchestrator => cases h
  case scanPage =>
    split at h
    · rename_i hscan hpages
      cases h
      simp only [Inv]
      simp only [hscan, hpages] at *
      norm_num at i5 i7 i9 ⊢
      all_goals (try (refine ⟨?_, ?_⟩))
      all_goals (try (refine ⟨?_, ?_⟩))
      all_goals (try (refine ⟨?_, ?_⟩))
      all_goals (try (refine ⟨?_, ?_⟩))
      all_goals (try (refine ⟨?_, ?_⟩))
      all_goals (try (refine ⟨?_, ?_⟩))
      all_goals (try (refine ⟨?_, ?_⟩))
      all_goals (try (refine ⟨?_, ?_⟩))
      all_goals (try intros)
      all_goals (first | assumption | omega | (simp_all; done) | (simp_all; omega))
    · cases h
  case extract ok =>
    split at h
    · rename_i key more hq
      split_ifs at h with hidle hok <;> cases h <;> simp only [Inv] <;>
        simp only [hq] at * <;> norm_num at i5 ⊢
      all_goals (try (refine ⟨?_, ?_⟩))
      all_goals (try (refine ⟨?_, ?_⟩))
      all_goals (try (refine ⟨?_, ?_⟩))
      all_goals (try (refine ⟨?_, ?_⟩))
      all_goals (try (refine ⟨?_, ?_⟩))
      all_goals (try (refine ⟨?_, ?_⟩))
      all_goals (try (refine ⟨?_, ?_⟩))
      all_goals (try (refine ⟨?_, ?_⟩))
      all_goals (try intros)
      all_goals (first | assumption | omega | (simp_all; done) | (simp_all; omega) |
        (intro hc; have h8 := (i8 hc).1; omega))
    · cases h
  case send i =>
    split at h
    · rename_i key hget
      have hlt : i < s.sending.length := by
        by_contra hge
        rw [List.get?_eq_none.2 (Nat.le_of_not_lt hge)] at hget
        cases hget
      have hne : s.sending ≠ [] := by
        intro hnil
        rw [hnil] at hlt
        simp at hlt
      split_ifs at h with hg
      cases h
      obtain ⟨hcap, hcl⟩ := hg
      simp only [Inv, List.length_eraseIdx, hlt, if_true]
      simp only [hcl] at *
      norm_num at i4 i5 i8 ⊢
      all_goals (try (refine ⟨?_, ?_⟩))
      all_goals (try (refine ⟨?_, ?_⟩))
      all_goals (try (refine ⟨?_, ?_⟩))
      all_goals (try (refine ⟨?_, ?_⟩))
      all_goals (try (refine ⟨?_, ?_⟩))
      all_goals (try (refine ⟨?_, ?_⟩))
      all_goals (try (refine ⟨?_, ?_⟩))
      all_goals (try (refine ⟨?_, ?_⟩))
      all_goals (try intros)
      all_goals (first | assumption | omega | (simp_all; done) | (simp_all; omega))
    · cases h
  case finishScan =>
    split_ifs at h with hg
    cases h
    obtain ⟨hscan, hpages, hq, hsend⟩ := hg
    simp only [Inv]
    simp only [hscan, hpages, hq, hsend] at *
    norm_num at i4 i5 i7 i8 i9 ⊢
    all_goals (try (refine ⟨?_, ?_⟩))
    all_goals (try (refine ⟨?_, ?_⟩))
    all_goals (try (refine ⟨?_, ?_⟩))
    all_goals (try (refine ⟨?_, ?_⟩))
    all_goals (try (refine ⟨?_, ?_⟩))
    all_goals (try (refine ⟨?_, ?_⟩))
    all_goals (try (refine ⟨?_, ?_⟩))
    all_goals (try (refine ⟨?_, ?_⟩))
    all_goals (try intros)
    all_goals (first | assumption | omega | (simp_all; done) | (simp_all; omega))
  case receive ok =>
    split at h
    · rename_i key more hch
      split_ifs at h with htr hok <;> cases h <;> simp only [Inv] <;>
        simp only [hch] at * <;> norm_num at i4 ⊢
      all_goals (try (refine ⟨?_, ?_⟩))
      all_goals (try (refine ⟨?_, ?_⟩))
      all_goals (try (refine ⟨?_, ?_⟩))
      all_goals (try (refine ⟨?_, ?_⟩))
      all_goals (try (refine ⟨?_, ?_⟩))
      all_goals (try (refine ⟨?_, ?_⟩))
      all_goals (try (refine ⟨?_, ?_⟩))
      all_goals (try (refine ⟨?_, ?_⟩))
      all_goals (try intros)
      all_goals (first | assumption | omega | (simp_all; done) | (simp_all; omega))
    · cases h
  case exitTransfer =>
    split_ifs at h with hg
    cases h
    obtain ⟨htr, hcl, hch⟩ := hg
    simp only [Inv]
    simp only [hcl, hch] at *
    norm_num at i4 i5 i8 ⊢
    all_goals (try (refine ⟨?_, ?_⟩))
    all_goals (try (refine ⟨?_, ?_⟩))
    all_goals (try (refine ⟨?_, ?_⟩))
    all_goals (try (refine ⟨?_, ?_⟩))
    all_goals (try (refine ⟨?_, ?_⟩))
    all_goals (try (refine ⟨?_, ?_⟩))
    all_goals (try (refine ⟨?_, ?_⟩))
    all_goals (try (refine ⟨?_, ?_⟩))
    all_goals (try intros)
    all_goals (first | assumption | omega | (simp_all; done) | (simp_all; omega))

/-- Every step preserves the invariant. -/
theorem Inv_step (cfg : Config) (s t : Pipeline) (a : Action) (hinv : Inv cfg s)
    (h : step cfg s a = some t) : Inv cfg t := by
  cases a
  case orchestrator => exact Inv_stepOrchestrator cfg s t hinv h
  all_goals (simp only [step] at h; exact Inv_stepWorker cfg s t _ hinv h)

/-- The invariant holds along every schedule. -/
theorem Inv_execFrom (cfg : Config) (schedule : List Action) :
    ∀ s t : Pipeline, Inv cfg s → execFrom cfg s schedule = some t → Inv cfg t := by
  induction schedule with
  | nil =>
    intro s t hinv h
    simp only [execFrom, Option.some.injEq] at h
    rw [← h]
    exact hinv
  | cons a rest ih =>
    intro s t hinv h
    simp only [execFrom] at h
    cases hstep : step cfg s a with
    | none => rw [hstep] at h; cases h
    | some s1 =>
      rw [hstep] at h
      exact ih s1 t (Inv_step cfg s s1 a hinv hstep) h

/-- Past the wait, with at least one transfer worker, the invariant gives the
drained state. -/
theorem drained_of_Inv (cfg : Config) (s : Pipeline) (hinv : Inv cfg s)
    (hpush : 1 ≤ cfg.pushRoutines) (hwaited : Pos.waited.rank ≤ s.pos.rank) :
    s.drained cfg := by
  obtain ⟨i1, i2, i3, i4, i5, i6, i7, i8, i9⟩ := hinv
  have h4 : Pos.waited.rank = 4 := rfl
  rw [h4] at hwaited
  have hwg := i6 hwaited
  have htr : s.transferring = 0 := by omega
  have hex := i3 (by omega)
  have hpos : 0 < s.transfersExited := by omega
  obtain ⟨hcl, hch⟩ := i4 hpos
  obtain ⟨hscan, hpages, hq, hidle, hsend⟩ := i5 hcl
  have h9 := i9 (by rw [hscan]; exact fun h => by cases h)
  rw [hidle, hsend] at h9
  simp at h9
  exact ⟨hscan, hpages, hq, hcl, hch, hidle, hsend, h9, htr, by omega⟩

/-- Counterexample to claim C9 as stated: with a push-routine count of zero
the orchestrator passes the wait at once and prints its last line while the
enumeration is not exhausted, the channel is open and the two extraction
workers have not exited. -/
theorem C9_counterexample :
    exec noPusherConfig orchestratorOnly = some noPusherFinal ∧
      noPusherFinal.pos = Pos.finished ∧
      ¬ noPusherFinal.drained noPusherConfig ∧
      noPusherFinal.pagesLeft ≠ [] ∧ noPusherFinal.closed = false ∧ noPusherFinal.idle = 2 := by
  decide

/-- Claim C9, amended.  For every configuration whose push-routine count is at
least one (every store content, channel capacity and export-routine count)
and every schedule of the orchestrator, the scanner and the pusher: in every
state in which the orchestrator has returned from its wait (so also at
`Reporter.Stop` and at the last line) the enumeration is exhausted, the dump
channel is closed and empty, and every extraction worker and every transfer
worker has exited. -/
theorem C9_wait_implies_drained (cfg : Config) (schedule : List Action) (s : Pipeline)
    (hpush : 1 ≤ cfg.pushRoutines) (hexec : exec cfg schedule = some s)
    (hwaited : Pos.waited.rank ≤ s.pos.rank) : s.drained cfg :=
  drained_of_Inv cfg s (Inv_execFrom cfg schedule _ s (Inv_initial cfg) hexec) hpush hwaited

/-- Witness of `C9_wait_implies_drained`: a complete schedule with one
transfer worker ends drained, with two keys transferred and one failed. -/
theorem C9_wait_implies_drained_witness :
    exec smallConfig smallSchedule = some smallFinal ∧ smallFinal.pos = Pos.finished ∧
      smallFinal.drained smallConfig :=
  ⟨by decide, rfl,
    C9_wait_implies_drained smallConfig smallSchedule smallFinal (by decide) (by decide)
      (by decide)⟩

end GoRedisMigrate
